import Mathlib

/-!
# Verification of the organization lifecycle manager

Shallow embedding of the multi-tenant organization-management service
(`app/services/organization_service.py`, `app/services/auth_service.py`,
`app/db/repositories/organization_repository.py`,
`app/db/repositories/admin_repository.py`, `app/models/organization.py`).

The MongoDB database is modelled as an explicit state: the `organizations`
metadata collection is a list of organization documents in insertion order,
and the dynamic per-organization partitions are an association list from
collection name to document list, in creation order.  Each repository call
of the Python code becomes one explicit state-passing step.  Store-level
failures at the two fallible points named by the spec (admin insertion and
the admin-id backfill / metadata update) are injected through a `FailSpec`
record; a MongoDB `insert_one` of a document whose `_id` is already present
in the target collection fails with a duplicate-key error, exactly as the
real engine does.

Python text primitives (`str.lower`, `str.isalnum`, `str.strip`) are
embedded on the ASCII and Latin-1 ranges; code points above U+00FF are
mapped to themselves by the case map and classified as non-alphanumeric,
a documented under-approximation of full Unicode.  All claims are settled
inside this fragment.
-/

/-- Python `str.lower` on one character, covering ASCII and the Latin-1
uppercase range U+00C0..U+00DE (excluding the multiplication sign U+00D7),
where Python maps `c` to `c + 0x20`.  Other code points are left unchanged. -/
def pyLowerChar (c : Char) : Char :=
  if decide ('A' ≤ c) && decide (c ≤ 'Z') then Char.ofNat (c.toNat + 32)
  else if decide (0xC0 ≤ c.toNat) && decide (c.toNat ≤ 0xDE) && decide (c.toNat ≠ 0xD7) then
    Char.ofNat (c.toNat + 32)
  else c

/-- Python `str.lower` lifted to a character list. -/
def pyLower (s : List Char) : List Char := s.map pyLowerChar

/-- Python `str.lower` on a `String`; used for the case-insensitive anchored
regex matches of `find_by_name` / `find_by_email`. -/
def pyLowerStr (s : String) : String := ⟨pyLower s.data⟩

/-- Python `str.isalnum` on one character, covering ASCII digits and letters
and the Latin-1 letters U+00C0..U+00FF (excluding U+00D7 and U+00F7). -/
def pyIsAlnumChar (c : Char) : Bool :=
  (decide ('0' ≤ c) && decide (c ≤ '9')) ||
  (decide ('a' ≤ c) && decide (c ≤ 'z')) ||
  (decide ('A' ≤ c) && decide (c ≤ 'Z')) ||
  (decide (0xC0 ≤ c.toNat) && decide (c.toNat ≤ 0xFF) &&
    decide (c.toNat ≠ 0xD7) && decide (c.toNat ≠ 0xF7))

/-- Python `str.isalnum`: false on the empty string, else all characters
alphanumeric. -/
def pyIsAlnumStr (s : List Char) : Bool := !s.isEmpty && s.all pyIsAlnumChar

/-- Whitespace characters stripped by Python `str.strip()` (ASCII range). -/
def pyWhitespaceChar (c : Char) : Bool :=
  c == ' ' || c == '\t' || c == '\n' || c == '\r' ||
  c == '\x0b' || c == '\x0c'

/-- Strip a leading run of characters satisfying `p`. -/
def lstripBy (p : Char → Bool) (s : List Char) : List Char := s.dropWhile p

/-- Strip a trailing run of characters satisfying `p`. -/
def rstripBy (p : Char → Bool) (s : List Char) : List Char :=
  (s.reverse.dropWhile p).reverse

/-- Python `str.strip()` (no argument): whitespace off both ends. -/
def pyStrip (s : List Char) : List Char := rstripBy pyWhitespaceChar (lstripBy pyWhitespaceChar s)

/-- The character class `[a-z0-9_]` of the sanitizer regex. -/
def allowedChar (c : Char) : Bool :=
  (decide ('a' ≤ c) && decide (c ≤ 'z')) ||
  (decide ('0' ≤ c) && decide (c ≤ '9')) ||
  c == '_'

/-- `re.sub` with pattern `[^a-z0-9_]` and replacement `_`. -/
def replaceDisallowed (s : List Char) : List Char :=
  s.map (fun c => if allowedChar c then c else '_')

/-- `re.sub` with pattern `_+` and replacement `_`: collapse each run of
consecutive underscores to a single underscore. -/
def collapseU : List Char → List Char
  | [] => []
  | [c] => [c]
  | a :: b :: rest =>
    if a == '_' && b == '_' then collapseU (b :: rest)
    else a :: collapseU (b :: rest)

/-- Python `str.strip` with argument `'_'`: underscores off both ends. -/
def stripUnderscores (s : List Char) : List Char :=
  rstripBy (fun c => c == '_') (lstripBy (fun c => c == '_') s)

/-- `OrganizationService._generate_collection_name`: lowercase,
whitespace-strip, replace every character outside `[a-z0-9_]` with `_`,
collapse underscore runs, strip end underscores, prefix `org_`. -/
def _generate_collection_name (org_name : String) : String :=
  "org_" ++ ⟨stripUnderscores (collapseU (replaceDisallowed (pyStrip (pyLower org_name.data))))⟩

/-- The sanitizer as the spec describes it in section 4.1 (refinement side of
claim C5): lower-case, replace characters outside `[a-z0-9_]` with `_`,
collapse repeated `_`, trim leading/trailing `_`, prefix `org_`.  The spec
wording has no separate whitespace-stripping step. -/
def sanitizeSpec (name : String) : String :=
  "org_" ++ ⟨stripUnderscores (collapseU (replaceDisallowed (pyLower name.data)))⟩

/-- The `OrganizationBase.validate_name` pydantic validator combined with the
`Field` bounds of `app/models/organization.py`: length between 1 and 100 and
alphanumeric after removing underscores, hyphens and spaces (Python
`str.isalnum`, which is false on the empty string). -/
def validName (s : String) : Bool :=
  decide (1 ≤ s.length) && decide (s.length ≤ 100) &&
    pyIsAlnumStr ((s.data.filter (fun c => c != '_')).filter
      (fun c => c != '-') |>.filter (fun c => c != ' '))

/-! ## Data model and database state -/

/-- A document of the `organizations` metadata collection
(`OrganizationInDB` of `app/models/organization.py`).  Timestamps are
modelled as natural clock ticks. -/
structure OrgDoc where
  id : String
  name : String
  description : Option String
  collection_name : String
  admin_id : String
  created_at : Nat
  updated_at : Nat
  is_deleted : Bool
  deleted_at : Option Nat
  deleted_by : Option String
deriving Repr, DecidableEq

/-- A document of a dynamic per-organization partition
(`AdminInDB` of `app/models/admin.py`); partitions only ever hold admin
records. -/
structure AdminDoc where
  id : String
  email : String
  name : String
  hashed_password : String
  organization_id : String
  created_at : Nat
  updated_at : Nat
deriving Repr, DecidableEq

/-- The MongoDB database state: the `organizations` metadata collection in
insertion order, the dynamic collections as an association list in creation
order, the ObjectId generator and the clock.  `list_collection_names` is
modelled as the names of the dynamic collections; generated partition names
always carry the `org_` prefix followed by a sanitized suffix and therefore
never collide with the metadata collection itself. -/
structure DB where
  orgs : List OrgDoc
  collections : List (String × List AdminDoc)
  nextId : Nat
  time : Nat
deriving Repr, DecidableEq

/-- `db.list_collection_names()` restricted to the dynamic partitions. -/
def listCollectionNames (db : DB) : List String := db.collections.map Prod.fst

/-- The documents of collection `c` (`collection.find()` with no filter);
an absent collection yields no documents. -/
def getCollection (db : DB) (c : String) : List AdminDoc :=
  match db.collections.find? (fun p => p.1 == c) with
  | some p => p.2
  | none => []

/-- Replace the document list of collection `c`. -/
def replaceColl (cols : List (String × List AdminDoc)) (c : String)
    (docs : List AdminDoc) : List (String × List AdminDoc) :=
  cols.map (fun p => if p.1 == c then (c, docs) else p)

/-- `collection.insert_one(doc)`: creates the collection on first insert;
fails with a duplicate-key error when a document with the same `_id` is
already present (the `_id` unique index MongoDB always maintains). -/
def insertInto (db : DB) (c : String) (d : AdminDoc) : Except String DB :=
  match db.collections.find? (fun p => p.1 == c) with
  | none => .ok { db with collections := db.collections ++ [(c, [d])] }
  | some p =>
    if p.2.any (fun x => x.id == d.id) then .error "duplicate key error"
    else .ok { db with collections := replaceColl db.collections c (p.2 ++ [d]) }

/-- `db.drop_collection(name)`: idempotent removal of a partition. -/
def dropCollection (db : DB) (c : String) : DB :=
  { db with collections := db.collections.filter (fun p => p.1 != c) }

/-! ## Organization repository (`organization_repository.py`) -/

/-- Replace the first list element satisfying `p` by its image under `f`
(`find_one_and_update` / `update_one` touch the first matching document). -/
def updateFirst (p : OrgDoc → Bool) (f : OrgDoc → OrgDoc) : List OrgDoc → List OrgDoc
  | [] => []
  | o :: rest => if p o then f o :: rest else o :: updateFirst p f rest

/-- Remove the first list element satisfying `p` (`delete_one`). -/
def removeFirst (p : OrgDoc → Bool) : List OrgDoc → List OrgDoc
  | [] => []
  | o :: rest => if p o then rest else o :: removeFirst p rest

/-- `OrganizationRepository.create`: assign id and timestamps, set
`is_deleted = False`, insert. -/
def orgRepoCreate (db : DB) (name : String) (description : Option String)
    (collection_name : String) : OrgDoc × DB :=
  let o : OrgDoc :=
    { id := toString db.nextId, name := name, description := description
      collection_name := collection_name, admin_id := ""
      created_at := db.time, updated_at := db.time
      is_deleted := false, deleted_at := none, deleted_by := none }
  (o, { db with orgs := db.orgs ++ [o], nextId := db.nextId + 1, time := db.time + 1 })

/-- `OrganizationRepository.find_by_id`. -/
def find_by_id (db : DB) (org_id : String) (include_deleted : Bool) : Option OrgDoc :=
  db.orgs.find? (fun o => o.id == org_id && (include_deleted || !o.is_deleted))

/-- `OrganizationRepository.find_by_name`: the case-insensitive anchored
regex `^name$` with option `i`, which on validated (regex-metacharacter
free) names is case-insensitive string equality. -/
def find_by_name (db : DB) (name : String) (include_deleted : Bool) : Option OrgDoc :=
  db.orgs.find? (fun o =>
    pyLowerStr o.name == pyLowerStr name && (include_deleted || !o.is_deleted))

/-- `OrganizationRepository.find_all`: filter, then offset/limit pagination
in insertion order. -/
def find_all (db : DB) (skip limit : Nat) (include_deleted : Bool) : List OrgDoc :=
  (((if include_deleted then db.orgs
     else db.orgs.filter (fun o => !o.is_deleted)).drop skip).take limit)

/-- The `$set` document of `OrganizationRepository.update`; a `none` field
is absent from the update dictionary. -/
structure UpdateFields where
  name : Option String := none
  description : Option String := none
  collection_name : Option String := none
  admin_id : Option String := none
deriving Repr, DecidableEq

/-- Apply a `$set` update and refresh `updated_at`. -/
def applyUpd (u : UpdateFields) (now : Nat) (o : OrgDoc) : OrgDoc :=
  { o with
    name := u.name.getD o.name
    description := match u.description with | some d => some d | none => o.description
    collection_name := u.collection_name.getD o.collection_name
    admin_id := u.admin_id.getD o.admin_id
    updated_at := now }

/-- `OrganizationRepository.update`: `find_one_and_update` on the first
non-deleted document with the given id, returning the updated document.
The boolean injects a store-level failure at this call site. -/
def orgRepoUpdate (db : DB) (inject : Bool) (org_id : String) (u : UpdateFields) :
    Except String (Option OrgDoc × DB) :=
  if inject then .error "injected update failure"
  else
    match db.orgs.find? (fun o => o.id == org_id && !o.is_deleted) with
    | none => .ok (none, { db with time := db.time + 1 })
    | some o =>
      let o' := applyUpd u db.time o
      .ok (some o',
        { db with
          orgs := updateFirst (fun x => x.id == org_id && !x.is_deleted)
                    (fun x => applyUpd u db.time x) db.orgs
          time := db.time + 1 })

/-- `OrganizationRepository.soft_delete`: `update_one` on the first
non-deleted document with the given id, setting the audit fields; reports
whether a document was modified. -/
def soft_delete (db : DB) (org_id : String) (deleted_by : String) : Bool × DB :=
  match db.orgs.find? (fun o => o.id == org_id && !o.is_deleted) with
  | none => (false, { db with time := db.time + 1 })
  | some _ =>
    (true,
      { db with
        orgs := updateFirst (fun x => x.id == org_id && !x.is_deleted)
                  (fun x =>
                    { x with is_deleted := true, deleted_at := some db.time
                             deleted_by := some deleted_by, updated_at := db.time })
                  db.orgs
        time := db.time + 1 })

/-- `OrganizationRepository.hard_delete`: `delete_one` on the id, deleted
or not; reports whether a document was removed. -/
def hard_delete (db : DB) (org_id : String) : Bool × DB :=
  match db.orgs.find? (fun o => o.id == org_id) with
  | none => (false, db)
  | some _ => (true, { db with orgs := removeFirst (fun o => o.id == org_id) db.orgs })

/-! ## Admin repository (`admin_repository.py`) -/

/-- `AdminRepository.create`: assign id and timestamps, insert into the
organization partition.  The boolean injects a store-level failure at this
call site (before any state change). -/
def adminRepoCreate (db : DB) (inject : Bool) (collection_name : String)
    (email aname hashed_password organization_id : String) :
    Except String (AdminDoc × DB) :=
  if inject then .error "injected admin insert failure"
  else
    let a : AdminDoc :=
      { id := toString db.nextId, email := email, name := aname
        hashed_password := hashed_password, organization_id := organization_id
        created_at := db.time, updated_at := db.time }
    match insertInto { db with nextId := db.nextId + 1, time := db.time + 1 }
            collection_name a with
    | .error e => .error e
    | .ok db' => .ok (a, db')

/-- `AdminRepository.find_by_email`: case-insensitive anchored regex match
inside one partition. -/
def adminFindByEmail (db : DB) (collection_name : String) (email : String) :
    Option AdminDoc :=
  (getCollection db collection_name).find?
    (fun a => pyLowerStr a.email == pyLowerStr email)

/-! ## Error model and failure injection -/

/-- `fastapi.HTTPException`: status code, detail message, response headers. -/
structure HTTPException where
  status_code : Nat
  detail : String
  headers : List (String × String) := []
deriving Repr, DecidableEq

/-- Injected store-level failures at the fallible call sites of the
multi-step operations: the admin insertion, the organization metadata
update (admin-id backfill and rename metadata update), and the first
insert of the rename copy loop. -/
structure FailSpec where
  failAdminInsert : Bool := false
  failOrgUpdate : Bool := false
  failCopy : Bool := false
deriving Repr, DecidableEq

/-- Modelled from the spec: `app/core/security.py` is not part of the
source tree; section 6 specifies the credential-hashing collaborator as
`hash(password) -> hash`.  Modelled as an injective tagging. -/
def hash_password (password : String) : String := "hashed:" ++ password

/-- Modelled from the spec: section 6 specifies
`verify(password, hash) -> bool`; a password verifies against exactly the
hash produced from it. -/
def verify_password (password hashed : String) : Bool :=
  hash_password password == hashed

/-- `create_access_token` of `app/core/jwt.py` signs and encodes the claim
set; the token payload embeds subject, admin id, organization id and email.
The JOSE encoding itself is an external library; modelled as a tagged
concatenation of the embedded claims. -/
def create_access_token (sub admin_id organization_id email : String) : String :=
  "jwt:" ++ sub ++ ":" ++ admin_id ++ ":" ++ organization_id ++ ":" ++ email

/-! ## Organization service (`organization_service.py`) -/

/-- The request body of `create_organization`
(`OrganizationCreate` of `app/models/organization.py`). -/
structure OrganizationCreate where
  name : String
  description : Option String := none
  admin_email : String
  admin_password : String
  admin_name : String
deriving Repr, DecidableEq

/-- The request body of `update_organization`
(`OrganizationUpdate`, both fields optional; `none` is an unset field,
absent from `model_dump(exclude_unset=True)`). -/
structure OrganizationUpdate where
  name : Option String := none
  description : Option String := none
deriving Repr, DecidableEq

/-- The compensation block of `create_organization`: hard-delete the
partially created metadata record, drop the partition if present, surface
the internal error with the underlying cause. -/
def rollbackCreate (db : DB) (org_id : String) (collection_name : String)
    (cause : String) : Except HTTPException (Option OrgDoc) × DB :=
  let db1 := (hard_delete db org_id).2
  let db2 := if (listCollectionNames db1).contains collection_name
             then dropCollection db1 collection_name else db1
  (.error { status_code := 500
            detail := "Failed to create organization: " ++ cause }, db2)

/-- `OrganizationService.create_organization`.  Returns what the Python
coroutine returns: the created organization, or `none` in the (sequentially
unreachable) case where the backfill update matches no record, or raises.
The conflict checks run before any state change; afterwards the metadata
insert, the admin insert and the backfill run with compensation on
failure. -/
def create_organization (db : DB) (fs : FailSpec) (req : OrganizationCreate) :
    Except HTTPException (Option OrgDoc) × DB :=
  match find_by_name db req.name true with
  | some existing =>
    if existing.is_deleted then
      (.error { status_code := 409
                detail := "Organization name " ++ req.name ++
                  " was previously used and is archived. Please choose a different name." }, db)
    else
      (.error { status_code := 409
                detail := "Organization with name " ++ req.name ++ " already exists" }, db)
  | none =>
    let collection_name := _generate_collection_name req.name
    if (listCollectionNames db).contains collection_name then
      (.error { status_code := 409
                detail := "Collection " ++ collection_name ++ " already exists" }, db)
    else
      let (organization, db1) := orgRepoCreate db req.name req.description collection_name
      match adminRepoCreate db1 fs.failAdminInsert collection_name
              req.admin_email req.admin_name (hash_password req.admin_password)
              organization.id with
      | .error cause => rollbackCreate db1 organization.id collection_name cause
      | .ok (admin, db2) =>
        match orgRepoUpdate db2 fs.failOrgUpdate organization.id
                { admin_id := some admin.id } with
        | .error cause => rollbackCreate db2 organization.id collection_name cause
        | .ok (updated, db3) => (.ok updated, db3)

/-- `OrganizationService.get_organization`: `find_by_id` excluding deleted
records, 404 when absent. -/
def get_organization (db : DB) (org_id : String) : Except HTTPException OrgDoc :=
  match find_by_id db org_id false with
  | none => .error { status_code := 404, detail := "Organization not found" }
  | some organization => .ok organization

/-- `OrganizationService.list_organizations`. -/
def list_organizations (db : DB) (skip limit : Nat) : List OrgDoc :=
  find_all db skip limit false

/-- The copy loop of the rename migration: insert each snapshot document of
the old partition into the new partition, stopping at the first failing
insert and keeping the state reached so far. -/
def copyLoop (db : DB) (dst : String) : List AdminDoc → Except String Unit × DB
  | [] => (.ok (), db)
  | d :: rest =>
    match insertInto db dst d with
    | .error e => (.error e, db)
    | .ok db' => copyLoop db' dst rest

/-- The compensation block of the rename migration: drop the new partition
if present, surface the internal error. -/
def rollbackMigrate (db : DB) (new_collection_name : String) (cause : String) :
    Except HTTPException (Option OrgDoc) × DB :=
  let db1 := if (listCollectionNames db).contains new_collection_name
             then dropCollection db new_collection_name else db
  (.error { status_code := 500
            detail := "Failed to migrate organization data: " ++ cause }, db1)

/-- The migration branch of `update_organization`: copy every document of
the old partition into the new one, update the metadata record (name,
patched fields, new collection name), then drop the old partition. -/
def migrateRename (db : DB) (fs : FailSpec) (org_id : String)
    (patch : OrganizationUpdate) (new_name : String)
    (new_collection_name old_collection_name : String) :
    Except HTTPException (Option OrgDoc) × DB :=
  if fs.failCopy then rollbackMigrate db new_collection_name "injected copy failure"
  else
    match copyLoop db new_collection_name (getCollection db old_collection_name) with
    | (.error cause, db1) => rollbackMigrate db1 new_collection_name cause
    | (.ok _, db1) =>
      match orgRepoUpdate db1 fs.failOrgUpdate org_id
              { name := some new_name, description := patch.description
                collection_name := some new_collection_name } with
      | .error cause => rollbackMigrate db1 new_collection_name cause
      | .ok (updated, db2) => (.ok updated, dropCollection db2 old_collection_name)

/-- `OrganizationService.update_organization`: authorization check, then
either the rename migration (patched name present and different from the
current name) or a plain metadata update.  An injected store failure in the
plain branch is outside any try block and surfaces as the framework-level
internal error. -/
def update_organization (db : DB) (fs : FailSpec) (org_id : String)
    (patch : OrganizationUpdate) (admin_id : String) :
    Except HTTPException (Option OrgDoc) × DB :=
  match find_by_id db org_id false with
  | none => (.error { status_code := 404, detail := "Organization not found" }, db)
  | some organization =>
    if organization.admin_id != admin_id then
      (.error { status_code := 403
                detail := "Not authorized to update this organization" }, db)
    else
      match patch.name with
      | some new_name =>
        if new_name != organization.name then
          match find_by_name db new_name true with
          | some existing_org =>
            if existing_org.id != org_id then
              (.error { status_code := 409
                        detail := "Organization name " ++ new_name ++
                          " already exists" }, db)
            else
              migrateRename db fs org_id patch new_name
                (_generate_collection_name new_name) organization.collection_name
          | none =>
            migrateRename db fs org_id patch new_name
              (_generate_collection_name new_name) organization.collection_name
        else
          match orgRepoUpdate db fs.failOrgUpdate org_id
                  { name := patch.name, description := patch.description } with
          | .error _ => (.error { status_code := 500, detail := "Internal Server Error" }, db)
          | .ok (none, db1) =>
            (.error { status_code := 404, detail := "Organization not found" }, db1)
          | .ok (some updated, db1) => (.ok (some updated), db1)
      | none =>
        match orgRepoUpdate db fs.failOrgUpdate org_id
                { name := patch.name, description := patch.description } with
        | .error _ => (.error { status_code := 500, detail := "Internal Server Error" }, db)
        | .ok (none, db1) =>
          (.error { status_code := 404, detail := "Organization not found" }, db1)
        | .ok (some updated, db1) => (.ok (some updated), db1)

/-- The result dictionary of `delete_organization`. -/
structure DeleteResult where
  message : String
  organization_id : String
  deleted_by : String
  audit_retained : Bool
deriving Repr, DecidableEq

/-- `OrganizationService.delete_organization`: authorization check,
soft-delete of the metadata record (404 when it was already deleted), then
hard drop of the partition. -/
def delete_organization (db : DB) (org_id : String) (admin_id : String) :
    Except HTTPException DeleteResult × DB :=
  match find_by_id db org_id false with
  | none => (.error { status_code := 404, detail := "Organization not found" }, db)
  | some organization =>
    if organization.admin_id != admin_id then
      (.error { status_code := 403
                detail := "Not authorized to delete this organization" }, db)
    else
      match soft_delete db org_id admin_id with
      | (false, db1) =>
        (.error { status_code := 404
                  detail := "Organization not found or already deleted" }, db1)
      | (true, db1) =>
        let collection_name := organization.collection_name
        let db2 := if (listCollectionNames db1).contains collection_name
                   then dropCollection db1 collection_name else db1
        (.ok { message := "Organization deleted successfully"
               organization_id := org_id, deleted_by := admin_id
               audit_retained := true }, db2)

/-! ## Authentication service (`auth_service.py`) -/

/-- The request body of `authenticate_admin` (`AdminLogin`). -/
structure AdminLogin where
  email : String
  password : String
deriving Repr, DecidableEq

/-- The token response of a successful authentication (`TokenResponse`). -/
structure TokenResponse where
  access_token : String
  token_type : String
  admin_id : String
  organization_id : String
deriving Repr, DecidableEq

/-- The 401 raised both for a wrong password and for an email found in no
partition: identical status, detail and headers, to avoid account
enumeration. -/
def incorrectCredsExc : HTTPException :=
  { status_code := 401, detail := "Incorrect email or password"
    headers := [("WWW-Authenticate", "Bearer")] }

/-- The scan of `authenticate_admin` over the active organizations: probe
each partition for the email; on the first hit verify the password, then
the organization back-reference, then issue the token. -/
def authScan (db : DB) (login : AdminLogin) : List OrgDoc → Except HTTPException TokenResponse
  | [] => .error incorrectCredsExc
  | org :: rest =>
    match adminFindByEmail db org.collection_name login.email with
    | none => authScan db login rest
    | some admin =>
      if !verify_password login.password admin.hashed_password then
        .error incorrectCredsExc
      else if admin.organization_id != org.id then
        .error { status_code := 401, detail := "Admin organization mismatch"
                 headers := [("WWW-Authenticate", "Bearer")] }
      else
        .ok { access_token := create_access_token admin.id admin.id org.id admin.email
              token_type := "bearer", admin_id := admin.id, organization_id := org.id }

/-- `AuthService.authenticate_admin`: scan the first 1000 active
organizations.  Reads only; the database state is unchanged. -/
def authenticate_admin (db : DB) (login : AdminLogin) :
    Except HTTPException TokenResponse :=
  authScan db login (find_all db 0 1000 false)

/-! ## List and collection lemmas -/

theorem find_append_none {α} (p : α → Bool) (l1 l2 : List α)
    (h : l1.find? p = none) : (l1 ++ l2).find? p = l2.find? p := by
  induction l1 with
  | nil => rfl
  | cons a t ih =>
    cases hp : p a with
    | true => simp [List.find?_cons, hp] at h
    | false =>
      simp only [List.find?_cons, hp] at h
      simp only [List.cons_append, List.find?_cons, hp]
      exact ih h

theorem find_none_of_all {α} (p : α → Bool) (l : List α)
    (h : ∀ a ∈ l, p a = false) : l.find? p = none := by
  induction l with
  | nil => rfl
  | cons a t ih =>
    rw [List.find?_cons, h a (by simp)]
    exact ih (fun x hx => h x (by simp [hx]))

theorem collFind_none_of_not_contains (cols : List (String × List AdminDoc)) (c : String)
    (h : (cols.map Prod.fst).contains c = false) :
    cols.find? (fun p => p.1 == c) = none := by
  induction cols with
  | nil => rfl
  | cons a t ih =>
    simp only [List.map_cons, List.contains_cons, Bool.or_eq_false_iff,
      beq_eq_false_iff_ne, ne_eq] at h
    rw [List.find?_cons]
    have h1 : (a.1 == c) = false := by
      simp only [beq_eq_false_iff_ne]
      exact fun hc => h.1 hc.symm
    simp only [h1]
    exact ih h.2

theorem removeFirst_append_singleton (p : OrgDoc → Bool) (l : List OrgDoc) (x : OrgDoc)
    (hl : ∀ y ∈ l, p y = false) (hx : p x = true) :
    removeFirst p (l ++ [x]) = l := by
  induction l with
  | nil => simp [removeFirst, hx]
  | cons a t ih =>
    have ha : p a = false := hl a (by simp)
    simp only [List.cons_append, removeFirst, ha, Bool.false_eq_true, if_false]
    exact congrArg (List.cons a) (ih (fun y hy => hl y (by simp [hy])))

theorem filter_append_singleton_self (cols : List (String × List AdminDoc))
    (c : String) (d : List AdminDoc)
    (h : (cols.map Prod.fst).contains c = false) :
    (cols ++ [(c, d)]).filter (fun p => p.1 != c) = cols := by
  induction cols with
  | nil => simp [List.filter]
  | cons a t ih =>
    simp only [List.map_cons, List.contains_cons, Bool.or_eq_false_iff,
      beq_eq_false_iff_ne, ne_eq] at h
    have h1 : (a.1 != c) = true := by
      simp only [bne_iff_ne, ne_eq]
      exact fun hc => h.1 hc.symm
    simp only [List.cons_append, List.filter_cons, h1, if_true]
    exact congrArg (List.cons a) (ih h.2)

theorem find_updateFirst_of_found (p : OrgDoc → Bool) (f : OrgDoc → OrgDoc)
    (l : List OrgDoc) (x : OrgDoc)
    (h : l.find? p = some x) (hpf : p (f x) = true) :
    (updateFirst p f l).find? p = some (f x) := by
  induction l with
  | nil => simp [List.find?] at h
  | cons a t ih =>
    rw [List.find?_cons] at h
    cases hp : p a with
    | true =>
      simp only [hp] at h
      injection h with h; subst h
      simp [updateFirst, hp, List.find?_cons, hpf]
    | false =>
      simp only [hp] at h
      simp only [updateFirst, hp, Bool.false_eq_true, if_false]
      rw [List.find?_cons, hp]
      exact ih h

theorem updateFirst_of_none (p : OrgDoc → Bool) (f : OrgDoc → OrgDoc)
    (l : List OrgDoc) (h : l.find? p = none) : updateFirst p f l = l := by
  induction l with
  | nil => rfl
  | cons a t ih =>
    rw [List.find?_cons] at h
    cases hp : p a with
    | true => simp [hp] at h
    | false =>
      simp only [hp] at h
      simp only [updateFirst, hp, Bool.false_eq_true, if_false]
      exact congrArg (List.cons a) (ih h)

theorem contains_true_iff (l : List String) (a : String) :
    l.contains a = true ↔ a ∈ l := by
  simp [List.contains, List.elem_eq_mem]

theorem contains_false_iff (l : List String) (a : String) :
    l.contains a = false ↔ a ∉ l := by
  rw [← Bool.not_eq_true, not_iff_not]
  exact contains_true_iff l a

theorem insertInto_ok_cases (db : DB) (c : String) (d : AdminDoc) (db' : DB)
    (h : insertInto db c d = .ok db') :
    (db.collections.find? (fun p => p.1 == c) = none ∧
      db' = { db with collections := db.collections ++ [(c, [d])] }) ∨
    (∃ p, db.collections.find? (fun p => p.1 == c) = some p ∧
      p.2.any (fun x => x.id == d.id) = false ∧
      db' = { db with collections := replaceColl db.collections c (p.2 ++ [d]) }) := by
  unfold insertInto at h
  cases hf : db.collections.find? (fun p => p.1 == c) with
  | none =>
    rw [hf] at h
    dsimp only at h
    injection h with h
    exact Or.inl ⟨rfl, h.symm⟩
  | some p =>
    rw [hf] at h
    dsimp only at h
    cases ha : p.2.any (fun x => x.id == d.id) with
    | true => rw [ha] at h; simp at h
    | false =>
      rw [ha] at h
      simp only [Bool.false_eq_true, if_false] at h
      injection h with h
      exact Or.inr ⟨p, rfl, ha, h.symm⟩

theorem find_replaceColl_some (cols : List (String × List AdminDoc)) (c : String)
    (docs : List AdminDoc) (p : String × List AdminDoc)
    (h : cols.find? (fun q => q.1 == c) = some p) :
    (replaceColl cols c docs).find? (fun q => q.1 == c) = some (c, docs) := by
  induction cols with
  | nil => simp [List.find?] at h
  | cons q t ih =>
    rw [List.find?_cons] at h
    cases hq : (q.1 == c) with
    | true =>
      simp only [replaceColl, List.map_cons, hq, if_true]
      rw [List.find?_cons]
      simp [List.find?_cons, beq_self_eq_true]
    | false =>
      rw [hq] at h
      simp only [replaceColl, List.map_cons, hq, Bool.false_eq_true, if_false]
      rw [List.find?_cons, hq]
      exact ih h

theorem find_replaceColl_other (cols : List (String × List AdminDoc)) (c c' : String)
    (docs : List AdminDoc) (hne : c' ≠ c) :
    (replaceColl cols c docs).find? (fun q => q.1 == c') =
      cols.find? (fun q => q.1 == c') := by
  induction cols with
  | nil => rfl
  | cons q t ih =>
    cases hq : (q.1 == c) with
    | true =>
      have hq1 : q.1 = c := eq_of_beq hq
      have hcc : (c == c') = false := by
        simp only [beq_eq_false_iff_ne, ne_eq]
        exact fun e => hne e.symm
      have hqc : (q.1 == c') = false := by rw [hq1]; exact hcc
      simp only [replaceColl, List.map_cons, hq, if_true]
      rw [List.find?_cons, List.find?_cons, hcc, hqc]
      exact ih
    | false =>
      simp only [replaceColl, List.map_cons, hq, Bool.false_eq_true, if_false]
      rw [List.find?_cons, List.find?_cons]
      cases hq' : (q.1 == c') with
      | true => rfl
      | false => exact ih

theorem names_replaceColl (cols : List (String × List AdminDoc)) (c : String)
    (docs : List AdminDoc) :
    (replaceColl cols c docs).map Prod.fst = cols.map Prod.fst := by
  induction cols with
  | nil => rfl
  | cons q t ih =>
    simp only [replaceColl, List.map_cons] at ih ⊢
    cases hq : (q.1 == c) with
    | true =>
      simp only [hq, if_true]
      rw [ih]
      have h1 : q.1 = c := eq_of_beq hq
      simp [h1]
    | false =>
      simp only [hq, Bool.false_eq_true, if_false]
      rw [ih]

theorem insertInto_orgs (db : DB) (c : String) (d : AdminDoc) (db' : DB)
    (h : insertInto db c d = .ok db') :
    db'.orgs = db.orgs ∧ db'.nextId = db.nextId ∧ db'.time = db.time := by
  rcases insertInto_ok_cases db c d db' h with ⟨_, rfl⟩ | ⟨p, _, _, rfl⟩ <;>
    exact ⟨rfl, rfl, rfl⟩

theorem getCollection_insert_same (db : DB) (c : String) (d : AdminDoc) (db' : DB)
    (h : insertInto db c d = .ok db') :
    getCollection db' c = getCollection db c ++ [d] := by
  rcases insertInto_ok_cases db c d db' h with ⟨hf, rfl⟩ | ⟨p, hf, _, rfl⟩
  · unfold getCollection
    simp only
    rw [List.find?_append, hf]
    simp [List.find?_cons, hf]
  · unfold getCollection
    simp only
    rw [find_replaceColl_some db.collections c (p.2 ++ [d]) p hf, hf]

theorem getCollection_insert_other (db : DB) (c : String) (d : AdminDoc) (db' : DB)
    (c' : String) (hne : c' ≠ c) (h : insertInto db c d = .ok db') :
    getCollection db' c' = getCollection db c' := by
  rcases insertInto_ok_cases db c d db' h with ⟨hf, rfl⟩ | ⟨p, hf, _, rfl⟩
  · unfold getCollection
    simp only
    rw [List.find?_append]
    have hcc : (c == c') = false := by
      rw [beq_eq_false_iff_ne]
      exact fun e => hne e.symm
    have h2 : List.find? (fun q => q.1 == c') [(c, [d])] = none := by
      simp [List.find?_cons, hcc]
    rw [h2]
    cases db.collections.find? (fun q => q.1 == c') <;> rfl
  · unfold getCollection
    simp only
    rw [find_replaceColl_other db.collections c c' (p.2 ++ [d]) hne]

theorem names_insert (db : DB) (c : String) (d : AdminDoc) (db' : DB)
    (h : insertInto db c d = .ok db') (c' : String)
    (hc' : c' ∈ listCollectionNames db) :
    c' ∈ listCollectionNames db' := by
  rcases insertInto_ok_cases db c d db' h with ⟨hf, rfl⟩ | ⟨p, hf, _, rfl⟩
  · unfold listCollectionNames at *
    simp only [List.map_append]
    exact List.mem_append_left _ hc'
  · unfold listCollectionNames at *
    simp only
    rw [names_replaceColl]
    exact hc'

theorem find_filter_ne (cols : List (String × List AdminDoc)) (c c' : String)
    (hne : c' ≠ c) :
    (cols.filter (fun p => p.1 != c)).find? (fun q => q.1 == c') =
      cols.find? (fun q => q.1 == c') := by
  induction cols with
  | nil => rfl
  | cons q t ih =>
    rw [List.filter_cons]
    cases hq : (q.1 == c) with
    | true =>
      have hq1 : q.1 = c := eq_of_beq hq
      have hqc : (q.1 == c') = false := by
        simp only [beq_eq_false_iff_ne, ne_eq, hq1]
        exact fun e => hne e.symm
      simp only [bne, hq, Bool.not_true, Bool.false_eq_true, if_false]
      rw [List.find?_cons, hqc]
      exact ih
    | false =>
      simp only [bne, hq, Bool.not_false, if_true]
      rw [List.find?_cons, List.find?_cons]
      cases hq' : (q.1 == c') with
      | true => rfl
      | false => exact ih

theorem getCollection_drop_ne (db : DB) (c c' : String) (hne : c' ≠ c) :
    getCollection (dropCollection db c) c' = getCollection db c' := by
  unfold getCollection dropCollection
  simp only
  rw [find_filter_ne db.collections c c' hne]

theorem contains_drop_self (db : DB) (c : String) :
    (listCollectionNames (dropCollection db c)).contains c = false := by
  rw [contains_false_iff]
  unfold listCollectionNames dropCollection
  simp only [List.mem_map, List.mem_filter]
  rintro ⟨p, ⟨_, hp⟩, rfl⟩
  simp [bne] at hp

theorem contains_after_cond_drop (db : DB) (c : String) :
    (listCollectionNames
      (if (listCollectionNames db).contains c then dropCollection db c else db)).contains c
      = false := by
  cases h : (listCollectionNames db).contains c with
  | true => simp only [if_true]; exact contains_drop_self db c
  | false => simp only [Bool.false_eq_true, if_false]; exact h

theorem getCollection_cond_drop_ne (db : DB) (c c' : String) (hne : c' ≠ c) :
    getCollection
      (if (listCollectionNames db).contains c then dropCollection db c else db) c'
      = getCollection db c' := by
  cases h : (listCollectionNames db).contains c with
  | true => simp only [if_true]; exact getCollection_drop_ne db c c' hne
  | false => simp only [Bool.false_eq_true, if_false]

theorem copyLoop_frame (dst : String) (l : List AdminDoc) :
    ∀ db : DB, (copyLoop db dst l).2.orgs = db.orgs ∧
      (copyLoop db dst l).2.nextId = db.nextId ∧
      (copyLoop db dst l).2.time = db.time := by
  induction l with
  | nil => intro db; exact ⟨rfl, rfl, rfl⟩
  | cons d rest ih =>
    intro db
    unfold copyLoop
    cases hi : insertInto db dst d with
    | error e => exact ⟨rfl, rfl, rfl⟩
    | ok db1 =>
      obtain ⟨h1, h2, h3⟩ := insertInto_orgs db dst d db1 hi
      obtain ⟨g1, g2, g3⟩ := ih db1
      exact ⟨g1.trans h1, g2.trans h2, g3.trans h3⟩

theorem copyLoop_getCollection_other (dst c' : String) (hne : c' ≠ dst) (l : List AdminDoc) :
    ∀ db : DB, getCollection (copyLoop db dst l).2 c' = getCollection db c' := by
  induction l with
  | nil => intro db; rfl
  | cons d rest ih =>
    intro db
    unfold copyLoop
    cases hi : insertInto db dst d with
    | error e => rfl
    | ok db1 =>
      rw [ih db1, getCollection_insert_other db dst d db1 c' hne hi]

theorem copyLoop_ok_super (dst : String) (l : List AdminDoc) :
    ∀ db db1 : DB, ∀ u, copyLoop db dst l = (.ok u, db1) →
      ∀ x ∈ getCollection db dst, x ∈ getCollection db1 dst := by
  induction l with
  | nil =>
    intro db db1 u h x hx
    injection h with _ h2
    rw [← h2]
    exact hx
  | cons d rest ih =>
    intro db db1 u h x hx
    unfold copyLoop at h
    cases hi : insertInto db dst d with
    | error e => rw [hi] at h; simp at h
    | ok db2 =>
      rw [hi] at h
      apply ih db2 db1 u h
      rw [getCollection_insert_same db dst d db2 hi]
      exact List.mem_append_left _ hx

theorem copyLoop_ok_mem (dst : String) (l : List AdminDoc) :
    ∀ db db1 : DB, ∀ u, copyLoop db dst l = (.ok u, db1) →
      ∀ d ∈ l, d ∈ getCollection db1 dst := by
  induction l with
  | nil => intro db db1 u _ d hd; cases hd
  | cons d0 rest ih =>
    intro db db1 u h d hd
    unfold copyLoop at h
    cases hi : insertInto db dst d0 with
    | error e => rw [hi] at h; simp at h
    | ok db2 =>
      rw [hi] at h
      rcases List.mem_cons.mp hd with rfl | hd'
      · apply copyLoop_ok_super dst rest db2 db1 u h
        rw [getCollection_insert_same db dst d db2 hi]
        exact List.mem_append_right _ (by simp)
      · exact ih db2 db1 u h d hd'

theorem copyLoop_self_ok_nil (dst : String) (db db1 : DB) (u : Unit)
    (h : copyLoop db dst (getCollection db dst) = (.ok u, db1)) :
    getCollection db dst = [] := by
  cases hl : getCollection db dst with
  | nil => rfl
  | cons d rest =>
    exfalso
    rw [hl] at h
    unfold copyLoop at h
    have hfind : ∃ p, db.collections.find? (fun q => q.1 == dst) = some p ∧ p.2 = d :: rest := by
      unfold getCollection at hl
      cases hf : db.collections.find? (fun q => q.1 == dst) with
      | none => rw [hf] at hl; cases hl
      | some p => rw [hf] at hl; exact ⟨p, rfl, hl⟩
    obtain ⟨p, hf, hp2⟩ := hfind
    have hdup : (p.2.any fun x => x.id == d.id) = true := by
      rw [hp2]
      simp [List.any_cons]
    unfold insertInto at h
    rw [hf] at h
    dsimp only at h
    rw [hdup] at h
    simp at h

/-! ## Claim C7: name conflicts on creation -/

/-- Claim C7: a creation request whose (validated) name is already held,
case-insensitively, by some organization record fails with a 409 Conflict
and changes no state; the detail reports an archived name when the holder
is soft-deleted and an existing name otherwise, so soft-deleted names are
never automatically reused. -/
theorem create_conflict_on_held_name (db : DB) (fs : FailSpec)
    (req : OrganizationCreate) (o : OrgDoc)
    (hvalid : validName req.name = true)
    (hmatch : find_by_name db req.name true = some o) :
    create_organization db fs req =
      (.error { status_code := 409
                detail :=
                  if o.is_deleted then
                    "Organization name " ++ req.name ++
                      " was previously used and is archived. Please choose a different name."
                  else
                    "Organization with name " ++ req.name ++ " already exists" }, db) := by
  unfold create_organization
  rw [hmatch]
  cases hd : o.is_deleted with
  | true => simp [hd]
  | false => simp [hd]

/-- Witness for C7 at a concrete state: one archived organization named
Acme Corp, a fresh creation request for the same name. -/
theorem create_conflict_on_held_name_witness :
    validName "Acme Corp" = true ∧
    find_by_name
      ⟨[⟨"0", "Acme Corp", none, "org_acme_corp", "1", 0, 0, true, some 3, some "1"⟩],
       [], 2, 4⟩ "Acme Corp" true =
      some ⟨"0", "Acme Corp", none, "org_acme_corp", "1", 0, 0, true, some 3, some "1"⟩ ∧
    create_organization
      ⟨[⟨"0", "Acme Corp", none, "org_acme_corp", "1", 0, 0, true, some 3, some "1"⟩],
       [], 2, 4⟩ {} ⟨"Acme Corp", none, "a@b.c", "password1", "Alice"⟩ =
      (.error { status_code := 409
                detail :=
                  "Organization name Acme Corp was previously used and is archived. Please choose a different name." },
       ⟨[⟨"0", "Acme Corp", none, "org_acme_corp", "1", 0, 0, true, some 3, some "1"⟩],
        [], 2, 4⟩) :=
  ⟨by decide, by decide, by
    exact create_conflict_on_held_name _ {} _
      ⟨"0", "Acme Corp", none, "org_acme_corp", "1", 0, 0, true, some 3, some "1"⟩
      (by decide) (by decide)⟩

/-! ## Claim C9: indistinguishable authentication failures -/

theorem authScan_wrong_password (db : DB) (login : AdminLogin) (orgs : List OrgDoc)
    (h : ∀ org ∈ orgs, ∀ a, adminFindByEmail db org.collection_name login.email = some a →
      verify_password login.password a.hashed_password = false) :
    authScan db login orgs = .error incorrectCredsExc := by
  induction orgs with
  | nil => rfl
  | cons org rest ih =>
    unfold authScan
    cases hf : adminFindByEmail db org.collection_name login.email with
    | none => exact ih (fun o ho a ha => h o (by simp [ho]) a ha)
    | some a =>
      dsimp only
      have hv : verify_password login.password a.hashed_password = false :=
        h org (by simp) a hf
      rw [hv]
      rfl

/-- Claim C9: an authentication attempt with an email that is present in
some scanned partition but whose password fails verification everywhere,
and an attempt with an email present in no scanned partition, both fail
with the very same 401 exception (status, detail and headers), so the two
cases are indistinguishable to the caller. -/
theorem authenticate_non_enumerable (db : DB) (l1 l2 : AdminLogin)
    (hexists : ∃ org ∈ find_all db 0 1000 false,
      (adminFindByEmail db org.collection_name l1.email).isSome = true)
    (hwrong : ∀ org ∈ find_all db 0 1000 false, ∀ a,
      adminFindByEmail db org.collection_name l1.email = some a →
      verify_password l1.password a.hashed_password = false)
    (hnone : ∀ org ∈ find_all db 0 1000 false,
      adminFindByEmail db org.collection_name l2.email = none) :
    authenticate_admin db l1 = .error incorrectCredsExc ∧
    authenticate_admin db l2 = .error incorrectCredsExc ∧
    authenticate_admin db l1 = authenticate_admin db l2 := by
  have h1 : authenticate_admin db l1 = .error incorrectCredsExc :=
    authScan_wrong_password db l1 _ hwrong
  have h2 : authenticate_admin db l2 = .error incorrectCredsExc :=
    authScan_wrong_password db l2 _
      (fun org ho a ha => by rw [hnone org ho] at ha; cases ha)
  exact ⟨h1, h2, h1.trans h2.symm⟩

/-- Witness for C9 at a concrete state: one organization whose partition
holds an admin; the first login uses the right email and a wrong password,
the second an unknown email. -/
theorem authenticate_non_enumerable_witness :
    (∃ org ∈ find_all
        ⟨[⟨"0", "Acme", none, "org_acme", "1", 0, 0, false, none, none⟩],
         [("org_acme", [⟨"1", "a@b.c", "Alice", "hashed:password1", "0", 0, 0⟩])],
         2, 3⟩ 0 1000 false,
      (adminFindByEmail
        ⟨[⟨"0", "Acme", none, "org_acme", "1", 0, 0, false, none, none⟩],
         [("org_acme", [⟨"1", "a@b.c", "Alice", "hashed:password1", "0", 0, 0⟩])],
         2, 3⟩ org.collection_name "a@b.c").isSome = true) ∧
    authenticate_admin
      ⟨[⟨"0", "Acme", none, "org_acme", "1", 0, 0, false, none, none⟩],
       [("org_acme", [⟨"1", "a@b.c", "Alice", "hashed:password1", "0", 0, 0⟩])],
       2, 3⟩ ⟨"a@b.c", "wrong-password"⟩ = .error incorrectCredsExc ∧
    authenticate_admin
      ⟨[⟨"0", "Acme", none, "org_acme", "1", 0, 0, false, none, none⟩],
       [("org_acme", [⟨"1", "a@b.c", "Alice", "hashed:password1", "0", 0, 0⟩])],
       2, 3⟩ ⟨"no@one.c", "password1"⟩ = .error incorrectCredsExc := by
  have h := authenticate_non_enumerable
    ⟨[⟨"0", "Acme", none, "org_acme", "1", 0, 0, false, none, none⟩],
     [("org_acme", [⟨"1", "a@b.c", "Alice", "hashed:password1", "0", 0, 0⟩])],
     2, 3⟩ ⟨"a@b.c", "wrong-password"⟩ ⟨"no@one.c", "password1"⟩
    (by decide) (by decide) (by decide)
  exact ⟨by decide, h.1, h.2.1⟩

/-! ## Claim C8: delete idempotence -/

theorem find_by_id_false_eq (db : DB) (org_id : String) :
    find_by_id db org_id false =
      db.orgs.find? (fun o => o.id == org_id && !o.is_deleted) := by
  unfold find_by_id
  simp only [Bool.false_or]

theorem orgs_cond_drop (db : DB) (c : String) (b : Bool) :
    (if b = true then dropCollection db c else db).orgs = db.orgs := by
  cases b <;> rfl

theorem find_updateFirst_deleted (org_id : String) (f : OrgDoc → OrgDoc)
    (hf_del : ∀ x, (f x).is_deleted = true)
    (l : List OrgDoc) (org : OrgDoc)
    (hids : (l.map OrgDoc.id).Nodup)
    (h : l.find? (fun o => o.id == org_id && !o.is_deleted) = some org) :
    (updateFirst (fun o => o.id == org_id && !o.is_deleted) f l).find?
      (fun o => o.id == org_id && !o.is_deleted) = none := by
  induction l with
  | nil => simp [List.find?] at h
  | cons a t ih =>
    simp only [List.map_cons, List.nodup_cons, List.mem_map] at hids
    rw [List.find?_cons] at h
    cases hp : (a.id == org_id && !a.is_deleted) with
    | true =>
      rw [hp] at h
      have haid : a.id = org_id := by
        have := (Bool.and_eq_true _ _).mp hp
        exact eq_of_beq this.1
      simp only [updateFirst, hp, if_true]
      rw [List.find?_cons]
      have hfa : ((f a).id == org_id && !(f a).is_deleted) = false := by
        rw [hf_del a]
        simp
      rw [hfa]
      apply find_none_of_all
      intro x hx
      cases hx_id : (x.id == org_id) with
      | false => simp [hx_id]
      | true =>
        exact absurd ⟨x, hx, (eq_of_beq hx_id).trans haid.symm⟩ hids.1
    | false =>
      rw [hp] at h
      simp only [updateFirst, hp, Bool.false_eq_true, if_false]
      rw [List.find?_cons, hp]
      exact ih hids.2 h

/-- Claim C8: after a successful delete of an organization id, a second
delete of the same id by any requesting admin fails with 404 Not Found and
changes no state. -/
theorem delete_twice_not_found (db : DB) (org_id a1 a2 : String)
    (r : DeleteResult) (db1 : DB)
    (hids : (db.orgs.map OrgDoc.id).Nodup)
    (h1 : delete_organization db org_id a1 = (.ok r, db1)) :
    delete_organization db1 org_id a2 =
      (.error { status_code := 404, detail := "Organization not found" }, db1) := by
  unfold delete_organization at h1
  cases hfind : find_by_id db org_id false with
  | none => rw [hfind] at h1; simp at h1
  | some org =>
    rw [hfind] at h1
    dsimp only at h1
    cases hadm : (org.admin_id != a1) with
    | true => rw [hadm] at h1; simp at h1
    | false =>
      rw [hadm] at h1
      simp only [Bool.false_eq_true, if_false] at h1
      rw [find_by_id_false_eq] at hfind
      unfold soft_delete at h1
      rw [hfind] at h1
      dsimp only at h1
      rw [Prod.mk.injEq] at h1
      obtain ⟨-, hdb⟩ := h1
      unfold delete_organization
      rw [find_by_id_false_eq]
      have hnone :
          db1.orgs.find? (fun o => o.id == org_id && !o.is_deleted) = none := by
        rw [← hdb]
        rw [orgs_cond_drop]
        exact find_updateFirst_deleted org_id
          (fun x => { x with is_deleted := true, deleted_at := some db.time
                             deleted_by := some a1, updated_at := db.time })
          (fun x => rfl) db.orgs org hids hfind
      rw [hnone]

/-- Witness for C8 at a concrete state: one organization; the first delete
succeeds, the second returns 404 and leaves the state unchanged. -/
theorem delete_twice_not_found_witness :
    ((⟨[⟨"0", "Acme", none, "org_acme", "1", 0, 0, false, none, none⟩],
       [("org_acme", [⟨"1", "a@b.c", "Alice", "hashed:password1", "0", 0, 0⟩])],
       2, 5⟩ : DB).orgs.map OrgDoc.id).Nodup ∧
    delete_organization
      ⟨[⟨"0", "Acme", none, "org_acme", "1", 0, 0, false, none, none⟩],
       [("org_acme", [⟨"1", "a@b.c", "Alice", "hashed:password1", "0", 0, 0⟩])],
       2, 5⟩ "0" "1" =
      (.ok ⟨"Organization deleted successfully", "0", "1", true⟩,
       ⟨[⟨"0", "Acme", none, "org_acme", "1", 0, 5, true, some 5, some "1"⟩],
        [], 2, 6⟩) ∧
    delete_organization
      ⟨[⟨"0", "Acme", none, "org_acme", "1", 0, 5, true, some 5, some "1"⟩],
       [], 2, 6⟩ "0" "somebody-else" =
      (.error { status_code := 404, detail := "Organization not found" },
       ⟨[⟨"0", "Acme", none, "org_acme", "1", 0, 5, true, some 5, some "1"⟩],
        [], 2, 6⟩) :=
  ⟨by decide, by rfl,
    delete_twice_not_found
      ⟨[⟨"0", "Acme", none, "org_acme", "1", 0, 0, false, none, none⟩],
       [("org_acme", [⟨"1", "a@b.c", "Alice", "hashed:password1", "0", 0, 0⟩])],
       2, 5⟩ "0" "1" "somebody-else"
      ⟨"Organization deleted successfully", "0", "1", true⟩
      ⟨[⟨"0", "Acme", none, "org_acme", "1", 0, 5, true, some 5, some "1"⟩],
       [], 2, 6⟩ (by decide) (by rfl)⟩

/-! ## Claim C1: create failure compensation -/

theorem rollbackCreate_no_coll (orgs : List OrgDoc) (cols : List (String × List AdminDoc))
    (n t : Nat) (org0 : OrgDoc) (oid cname cause : String)
    (hid : org0.id = oid)
    (hfresh : ∀ o ∈ orgs, (o.id == oid) = false)
    (hc : (cols.map Prod.fst).contains cname = false) :
    rollbackCreate ⟨orgs ++ [org0], cols, n, t⟩ oid cname cause =
      (.error { status_code := 500
                detail := "Failed to create organization: " ++ cause },
       ⟨orgs, cols, n, t⟩) := by
  subst hid
  unfold rollbackCreate hard_delete
  have h1 : (orgs ++ [org0]).find? (fun o => o.id == org0.id) = some org0 := by
    rw [find_append_none _ _ _ (find_none_of_all _ _ hfresh)]
    simp [List.find?_cons]
  dsimp only
  rw [h1]
  dsimp only
  rw [removeFirst_append_singleton _ _ _ hfresh (by simp)]
  unfold listCollectionNames
  dsimp only
  rw [hc]
  rfl

theorem rollbackCreate_with_coll (orgs : List OrgDoc) (cols : List (String × List AdminDoc))
    (n t : Nat) (org0 : OrgDoc) (oid cname : String) (d : List AdminDoc) (cause : String)
    (hid : org0.id = oid)
    (hfresh : ∀ o ∈ orgs, (o.id == oid) = false)
    (hc : (cols.map Prod.fst).contains cname = false) :
    rollbackCreate ⟨orgs ++ [org0], cols ++ [(cname, d)], n, t⟩ oid cname cause =
      (.error { status_code := 500
                detail := "Failed to create organization: " ++ cause },
       ⟨orgs, cols, n, t⟩) := by
  subst hid
  unfold rollbackCreate hard_delete
  have h1 : (orgs ++ [org0]).find? (fun o => o.id == org0.id) = some org0 := by
    rw [find_append_none _ _ _ (find_none_of_all _ _ hfresh)]
    simp [List.find?_cons]
  dsimp only
  rw [h1]
  dsimp only
  rw [removeFirst_append_singleton _ _ _ hfresh (by simp)]
  unfold listCollectionNames
  dsimp only
  have h2 : ((cols ++ [(cname, d)]).map Prod.fst).contains cname = true := by
    rw [contains_true_iff]
    simp
  rw [h2]
  simp only [reduceIte]
  unfold dropCollection
  dsimp only
  rw [filter_append_singleton_self _ _ _ hc]

/-- Claim C1: when a creation request passes the name and partition checks
and the admin insertion or the admin-id backfill fails, the operation ends
with a 500 Internal error carrying the underlying cause, no organization
metadata record of the request remains, and the new partition is absent:
the metadata collection and the partition listing are exactly as before. -/
theorem create_rollback (db : DB) (fs : FailSpec) (req : OrganizationCreate)
    (hname : find_by_name db req.name true = none)
    (hcoll : (listCollectionNames db).contains (_generate_collection_name req.name) = false)
    (hfresh : ∀ o ∈ db.orgs, o.id ≠ toString db.nextId)
    (hfail : fs.failAdminInsert = true ∨ fs.failOrgUpdate = true) :
    ∃ cause,
      (create_organization db fs req).1 =
        .error { status_code := 500
                 detail := "Failed to create organization: " ++ cause } ∧
      (create_organization db fs req).2.orgs = db.orgs ∧
      (create_organization db fs req).2.collections = db.collections := by
  have hfresh' : ∀ o ∈ db.orgs, (o.id == toString db.nextId) = false := by
    intro o ho
    rw [beq_eq_false_iff_ne]
    exact hfresh o ho
  unfold create_organization
  rw [hname]
  dsimp only
  rw [hcoll]
  simp only [Bool.false_eq_true, if_false]
  unfold orgRepoCreate
  dsimp only
  cases hA : fs.failAdminInsert with
  | true =>
    unfold adminRepoCreate
    rw [if_pos rfl]
    dsimp only
    rw [rollbackCreate_no_coll db.orgs db.collections (db.nextId + 1) (db.time + 1)
      _ _ _ _ rfl hfresh' hcoll]
    exact ⟨"injected admin insert failure", rfl, rfl, rfl⟩
  | false =>
    have hB : fs.failOrgUpdate = true := by
      cases hfail with
      | inl h => rw [h] at hA; cases hA
      | inr h => exact h
    unfold adminRepoCreate
    rw [if_neg Bool.false_ne_true]
    unfold insertInto
    dsimp only
    rw [collFind_none_of_not_contains db.collections _ hcoll]
    dsimp only
    unfold orgRepoUpdate
    rw [hB]
    rw [if_pos rfl]
    dsimp only
    rw [rollbackCreate_with_coll db.orgs db.collections (db.nextId + 1 + 1)
      (db.time + 1 + 1) _ _ _ _ _ rfl hfresh' hcoll]
    exact ⟨"injected update failure", rfl, rfl, rfl⟩

/-- Witness for C1 at a concrete state: empty database, a valid creation
request, injected failure at the admin insertion. -/
theorem create_rollback_witness :
    ∃ cause,
      (create_organization ⟨[], [], 0, 0⟩ { failAdminInsert := true }
        ⟨"Acme Corp", none, "a@b.c", "password1", "Alice"⟩).1 =
        .error { status_code := 500
                 detail := "Failed to create organization: " ++ cause } ∧
      (create_organization ⟨[], [], 0, 0⟩ { failAdminInsert := true }
        ⟨"Acme Corp", none, "a@b.c", "password1", "Alice"⟩).2.orgs = ([] : List OrgDoc) ∧
      (create_organization ⟨[], [], 0, 0⟩ { failAdminInsert := true }
        ⟨"Acme Corp", none, "a@b.c", "password1", "Alice"⟩).2.collections =
        ([] : List (String × List AdminDoc)) :=
  create_rollback ⟨[], [], 0, 0⟩ { failAdminInsert := true }
    ⟨"Acme Corp", none, "a@b.c", "password1", "Alice"⟩
    (by decide) (by decide) (by intro o ho; cases ho) (Or.inl rfl)

/-! ## Claim C6: sanitizer collisions yield Conflict -/

theorem rollbackCreate_fst (db : DB) (oid cname cause : String) :
    (rollbackCreate db oid cname cause).1 =
      .error { status_code := 500
               detail := "Failed to create organization: " ++ cause } := rfl

theorem create_ok_partition_listed (db : DB) (fs : FailSpec) (req : OrganizationCreate)
    (r : Option OrgDoc) (db1 : DB)
    (h : create_organization db fs req = (.ok r, db1)) :
    (listCollectionNames db1).contains (_generate_collection_name req.name) = true := by
  unfold create_organization at h
  cases hn : find_by_name db req.name true with
  | some o =>
    rw [hn] at h
    dsimp only at h
    cases hd : o.is_deleted with
    | true => rw [hd] at h; rw [if_pos rfl] at h; simp at h
    | false => rw [hd] at h; rw [if_neg Bool.false_ne_true] at h; simp at h
  | none =>
    rw [hn] at h
    dsimp only at h
    cases hc : (listCollectionNames db).contains (_generate_collection_name req.name) with
    | true => rw [hc] at h; rw [if_pos rfl] at h; simp at h
    | false =>
      rw [hc] at h
      rw [if_neg Bool.false_ne_true] at h
      unfold orgRepoCreate at h
      dsimp only at h
      cases hA : fs.failAdminInsert with
      | true =>
        rw [hA] at h
        unfold adminRepoCreate at h
        rw [if_pos rfl] at h
        dsimp only at h
        have := congrArg Prod.fst h
        rw [rollbackCreate_fst] at this
        simp at this
      | false =>
        rw [hA] at h
        unfold adminRepoCreate at h
        rw [if_neg Bool.false_ne_true] at h
        unfold insertInto at h
        dsimp only at h
        rw [collFind_none_of_not_contains db.collections _ hc] at h
        dsimp only at h
        cases hB : fs.failOrgUpdate with
        | true =>
          rw [hB] at h
          unfold orgRepoUpdate at h
          rw [if_pos rfl] at h
          dsimp only at h
          have := congrArg Prod.fst h
          rw [rollbackCreate_fst] at this
          simp at this
        | false =>
          rw [hB] at h
          unfold orgRepoUpdate at h
          rw [if_neg Bool.false_ne_true] at h
          dsimp only at h
          have hdb1 : db1.collections =
              db.collections ++ [(_generate_collection_name req.name,
                [⟨toString (db.nextId + 1), req.admin_email, req.admin_name,
                  hash_password req.admin_password, toString db.nextId,
                  db.time + 1, db.time + 1⟩])] := by
            cases hf : (db.orgs ++
                ([⟨toString db.nextId, req.name, req.description,
                  _generate_collection_name req.name, "", db.time, db.time,
                  false, none, none⟩] : List OrgDoc)).find?
                  (fun o => o.id == toString db.nextId && !o.is_deleted) with
            | none =>
              rw [hf] at h
              dsimp only at h
              rw [Prod.mk.injEq] at h
              rw [← h.2]
            | some o =>
              rw [hf] at h
              dsimp only at h
              rw [Prod.mk.injEq] at h
              rw [← h.2]
          rw [contains_true_iff]
          unfold listCollectionNames
          rw [hdb1]
          simp

/-- Claim C6: two valid names that differ as strings but sanitize to the
same partition key cannot both be created: after the first creation
succeeds, the second creation fails with a 409 Conflict (from the name
check when the lowercased names coincide, otherwise from the
partition-listing check) and leaves the state unchanged. -/
theorem create_collision_conflict (db0 db1 : DB) (fs1 fs2 : FailSpec)
    (req1 req2 : OrganizationCreate) (r1 : Option OrgDoc)
    (hv1 : validName req1.name = true) (hv2 : validName req2.name = true)
    (hne : req1.name ≠ req2.name)
    (hsame : _generate_collection_name req1.name = _generate_collection_name req2.name)
    (h1 : create_organization db0 fs1 req1 = (.ok r1, db1)) :
    ∃ e : HTTPException,
      create_organization db1 fs2 req2 = (.error e, db1) ∧ e.status_code = 409 := by
  have hc : (listCollectionNames db1).contains (_generate_collection_name req2.name) = true := by
    rw [← hsame]
    exact create_ok_partition_listed db0 fs1 req1 r1 db1 h1
  unfold create_organization
  cases hn : find_by_name db1 req2.name true with
  | some o =>
    dsimp only
    cases hd : o.is_deleted with
    | true => rw [if_pos rfl]; exact ⟨_, rfl, rfl⟩
    | false => rw [if_neg Bool.false_ne_true]; exact ⟨_, rfl, rfl⟩
  | none =>
    dsimp only
    rw [hc]
    rw [if_pos rfl]
    exact ⟨_, rfl, rfl⟩

/-- Witness for C6 at a concrete run: Acme Corp (single space) is created
in an empty database; creating Acme  Corp (double space), a different
string with the same partition key, then yields a 409 with no state
change. -/
theorem create_collision_conflict_witness :
    validName "Acme Corp" = true ∧ validName "Acme  Corp" = true ∧
    "Acme Corp" ≠ "Acme  Corp" ∧
    _generate_collection_name "Acme Corp" = _generate_collection_name "Acme  Corp" ∧
    (∃ e : HTTPException,
      create_organization
        ⟨[⟨"0", "Acme Corp", none, "org_acme_corp", "1", 0, 2, false, none, none⟩],
         [("org_acme_corp", [⟨"1", "a@b.c", "Alice", "hashed:password1", "0", 1, 1⟩])],
         2, 3⟩ {} ⟨"Acme  Corp", none, "b@c.d", "password2", "Bob"⟩ =
        (.error e,
         ⟨[⟨"0", "Acme Corp", none, "org_acme_corp", "1", 0, 2, false, none, none⟩],
          [("org_acme_corp", [⟨"1", "a@b.c", "Alice", "hashed:password1", "0", 1, 1⟩])],
          2, 3⟩) ∧ e.status_code = 409) :=
  ⟨by decide, by decide, by decide, by decide,
    create_collision_conflict ⟨[], [], 0, 0⟩ _ {} {}
      ⟨"Acme Corp", none, "a@b.c", "password1", "Alice"⟩
      ⟨"Acme  Corp", none, "b@c.d", "password2", "Bob"⟩
      (some ⟨"0", "Acme Corp", none, "org_acme_corp", "1", 0, 2, false, none, none⟩)
      (by decide) (by decide) (by decide) (by decide) (by rfl)⟩

/-! ## Claim C4: rename to a name with the same partition key -/

theorem rollbackMigrate_snd_contains (db : DB) (c cause : String) :
    (listCollectionNames (rollbackMigrate db c cause).2).contains c = false := by
  unfold rollbackMigrate
  dsimp only
  exact contains_after_cond_drop db c

theorem migrate_self_not_listed (db : DB) (fs : FailSpec) (org_id : String)
    (patch : OrganizationUpdate) (n c : String) :
    (listCollectionNames (migrateRename db fs org_id patch n c c).2).contains c = false := by
  unfold migrateRename
  cases hF : fs.failCopy with
  | true =>
    rw [if_pos rfl]
    exact rollbackMigrate_snd_contains db c _
  | false =>
    rw [if_neg Bool.false_ne_true]
    cases hcl : copyLoop db c (getCollection db c) with
    | mk res db1 =>
      cases res with
      | error e =>
        dsimp only
        exact rollbackMigrate_snd_contains db1 c _
      | ok u =>
        dsimp only
        cases hup : orgRepoUpdate db1 fs.failOrgUpdate org_id
            { name := some n, description := patch.description, collection_name := some c } with
        | error e => exact rollbackMigrate_snd_contains db1 c _
        | ok p =>
          cases p with
          | mk upd db2 =>
            dsimp only
            exact contains_drop_self db2 c

/-- Claim C4: when the patched name differs from the current name as a
string but sanitizes to the current partition key, the migration path runs
with old and new collection names equal, and the drop performed at the end
of the operation (the post-migration drop on success, or the rollback drop
on copy failure) removes the organization's only partition: afterwards the
partition key is absent from the listing. -/
theorem update_same_key_drops_partition (db : DB) (fs : FailSpec) (org_id : String)
    (patch : OrganizationUpdate) (adm : String) (org : OrgDoc) (n : String)
    (horg : find_by_id db org_id false = some org)
    (hadm : org.admin_id = adm)
    (hpatch : patch.name = some n)
    (hne : n ≠ org.name)
    (hkey : _generate_collection_name n = org.collection_name)
    (hconf : ∀ o ∈ db.orgs, (pyLowerStr o.name == pyLowerStr n) = true → o.id = org_id) :
    (listCollectionNames
      (update_organization db fs org_id patch adm).2).contains org.collection_name
      = false := by
  unfold update_organization
  rw [horg]
  dsimp only
  have ha : (org.admin_id != adm) = false := by simp [bne_eq_false_iff_eq, hadm]
  rw [ha, if_neg Bool.false_ne_true, hpatch]
  dsimp only
  have hb : (n != org.name) = true := by simp [bne_iff_ne, hne]
  rw [hb, if_pos rfl]
  cases hn : find_by_name db n true with
  | some o =>
    dsimp only
    have hmem : o ∈ db.orgs := List.mem_of_find?_eq_some hn
    have hpred := List.find?_some hn
    simp only [Bool.true_or, Bool.and_true] at hpred
    have hc : (o.id != org_id) = false := by
      simp [bne_eq_false_iff_eq, hconf o hmem hpred]
    rw [hc, if_neg Bool.false_ne_true, hkey]
    exact migrate_self_not_listed db fs org_id patch n org.collection_name
  | none =>
    dsimp only
    rw [hkey]
    exact migrate_self_not_listed db fs org_id patch n org.collection_name

/-- Witness for C4 at a concrete state: renaming Acme to ACME (same
partition key `org_acme`, nonempty partition) ends with `org_acme` absent
from the partition listing. -/
theorem update_same_key_drops_partition_witness :
    (listCollectionNames
      (update_organization
        ⟨[⟨"0", "Acme", none, "org_acme", "7", 0, 0, false, none, none⟩],
         [("org_acme", [⟨"1", "a@b.c", "Alice", "hashed:password1", "0", 0, 0⟩])],
         2, 5⟩ {} "0" ⟨some "ACME", none⟩ "7").2).contains "org_acme" = false :=
  update_same_key_drops_partition
    ⟨[⟨"0", "Acme", none, "org_acme", "7", 0, 0, false, none, none⟩],
     [("org_acme", [⟨"1", "a@b.c", "Alice", "hashed:password1", "0", 0, 0⟩])],
     2, 5⟩ {} "0" ⟨some "ACME", none⟩ "7"
    ⟨"0", "Acme", none, "org_acme", "7", 0, 0, false, none, none⟩ "ACME"
    (by decide) (by decide) (by decide) (by decide) (by decide) (by decide)

/-! ## Claim C2: successful rename migrates every record -/

theorem rollbackMigrate_fst (db : DB) (c cause : String) :
    (rollbackMigrate db c cause).1 =
      .error { status_code := 500
               detail := "Failed to migrate organization data: " ++ cause } := rfl

theorem migrate_ok_spec (db : DB) (fs : FailSpec) (org_id : String)
    (patch : OrganizationUpdate) (new_name : String) (org : OrgDoc)
    (res : Option OrgDoc) (db' : DB)
    (horg : db.orgs.find? (fun o => o.id == org_id && !o.is_deleted) = some org)
    (hrun : migrateRename db fs org_id patch new_name
      (_generate_collection_name new_name) org.collection_name = (.ok res, db')) :
    (∀ d ∈ getCollection db org.collection_name,
        d ∈ getCollection db' (_generate_collection_name new_name)) ∧
    (listCollectionNames db').contains org.collection_name = false ∧
    ∃ org', res = some org' ∧ org'.name = new_name ∧
      org'.collection_name = _generate_collection_name new_name ∧
      find_by_id db' org_id false = some org' := by
  unfold migrateRename at hrun
  cases hF : fs.failCopy with
  | true =>
    rw [hF, if_pos rfl] at hrun
    have := congrArg Prod.fst hrun
    rw [rollbackMigrate_fst] at this
    simp at this
  | false =>
    rw [hF, if_neg Bool.false_ne_true] at hrun
    cases hcl : copyLoop db (_generate_collection_name new_name)
        (getCollection db org.collection_name) with
    | mk cres db1 =>
      rw [hcl] at hrun
      cases cres with
      | error e =>
        dsimp only at hrun
        have := congrArg Prod.fst hrun
        rw [rollbackMigrate_fst] at this
        simp at this
      | ok u =>
        dsimp only at hrun
        have hfr := copyLoop_frame (_generate_collection_name new_name)
          (getCollection db org.collection_name) db
        rw [hcl] at hfr
        have ho1 : db1.orgs = db.orgs := hfr.1
        cases hB : fs.failOrgUpdate with
        | true =>
          unfold orgRepoUpdate at hrun
          rw [hB, if_pos rfl] at hrun
          dsimp only at hrun
          have := congrArg Prod.fst hrun
          rw [rollbackMigrate_fst] at this
          simp at this
        | false =>
          unfold orgRepoUpdate at hrun
          rw [hB, if_neg Bool.false_ne_true] at hrun
          dsimp only at hrun
          rw [ho1, horg] at hrun
          dsimp only at hrun
          rw [Prod.mk.injEq] at hrun
          obtain ⟨hres, hdb'⟩ := hrun
          injection hres with hres
          constructor
          · intro d hd
            have hmem1 : d ∈ getCollection db1 (_generate_collection_name new_name) :=
              copyLoop_ok_mem _ _ db db1 u hcl d hd
            by_cases hON : _generate_collection_name new_name = org.collection_name
            · exfalso
              rw [hON] at hcl
              have := copyLoop_self_ok_nil org.collection_name db db1 u hcl
              rw [this] at hd
              cases hd
            · rw [← hdb']
              rw [getCollection_drop_ne _ _ _ hON]
              exact hmem1
          constructor
          · rw [← hdb']
            exact contains_drop_self _ _
          · refine ⟨_, hres.symm, rfl, rfl, ?_⟩
            rw [find_by_id_false_eq, ← hdb']
            unfold dropCollection
            dsimp only
            apply find_updateFirst_of_found _ _ _ _ horg
            have hp := List.find?_some horg
            exact hp

/-- Claim C2: for every successful rename from the current name to
`new_name`, every record of the old partition (the sanitized current name)
is present, with the same identity, in the new partition (the sanitized
new name) afterwards; the old partition no longer appears in the partition
listing; and the stored organization record carries the new name and the
new partition key. -/
theorem rename_success_spec (db : DB) (fs : FailSpec) (org_id : String)
    (patch : OrganizationUpdate) (adm : String) (org : OrgDoc) (new_name : String)
    (res : Option OrgDoc) (db' : DB)
    (horg : find_by_id db org_id false = some org)
    (hkey : org.collection_name = _generate_collection_name org.name)
    (hpatch : patch.name = some new_name)
    (hne : new_name ≠ org.name)
    (hrun : update_organization db fs org_id patch adm = (.ok res, db')) :
    (∀ d ∈ getCollection db (_generate_collection_name org.name),
        d ∈ getCollection db' (_generate_collection_name new_name)) ∧
    (listCollectionNames db').contains (_generate_collection_name org.name) = false ∧
    ∃ org', res = some org' ∧ org'.name = new_name ∧
      org'.collection_name = _generate_collection_name new_name ∧
      find_by_id db' org_id false = some org' := by
  rw [← hkey]
  unfold update_organization at hrun
  rw [horg] at hrun
  dsimp only at hrun
  cases hadm : (org.admin_id != adm) with
  | true => rw [hadm, if_pos rfl] at hrun; simp at hrun
  | false =>
    rw [hadm, if_neg Bool.false_ne_true, hpatch] at hrun
    dsimp only at hrun
    have hb : (new_name != org.name) = true := by simp [bne_iff_ne, hne]
    rw [hb, if_pos rfl] at hrun
    rw [find_by_id_false_eq] at horg
    cases hn : find_by_name db new_name true with
    | some o =>
      rw [hn] at hrun
      dsimp only at hrun
      cases hoid : (o.id != org_id) with
      | true => rw [hoid, if_pos rfl] at hrun; simp at hrun
      | false =>
        rw [hoid, if_neg Bool.false_ne_true] at hrun
        exact migrate_ok_spec db fs org_id patch new_name org res db' horg hrun
    | none =>
      rw [hn] at hrun
      dsimp only at hrun
      exact migrate_ok_spec db fs org_id patch new_name org res db' horg hrun
/-- Witness for C2 at a concrete run: renaming Acme to Beta Inc migrates
the admin record into `org_beta_inc`, removes `org_acme` from the listing,
and stores the new name and partition key. -/
theorem rename_success_spec_witness :
    (∀ d ∈ getCollection
        ⟨[⟨"0", "Acme", none, "org_acme", "7", 0, 0, false, none, none⟩],
         [("org_acme", [⟨"1", "a@b.c", "Alice", "hashed:password1", "0", 0, 0⟩])],
         2, 5⟩ (_generate_collection_name "Acme"),
      d ∈ getCollection
        ⟨[⟨"0", "Beta Inc", none, "org_beta_inc", "7", 0, 5, false, none, none⟩],
         [("org_beta_inc", [⟨"1", "a@b.c", "Alice", "hashed:password1", "0", 0, 0⟩])],
         2, 6⟩ (_generate_collection_name "Beta Inc")) ∧
    (listCollectionNames
      ⟨[⟨"0", "Beta Inc", none, "org_beta_inc", "7", 0, 5, false, none, none⟩],
       [("org_beta_inc", [⟨"1", "a@b.c", "Alice", "hashed:password1", "0", 0, 0⟩])],
       2, 6⟩).contains (_generate_collection_name "Acme") = false ∧
    ∃ org', (some ⟨"0", "Beta Inc", none, "org_beta_inc", "7", 0, 5, false, none, none⟩ :
        Option OrgDoc) = some org' ∧
      org'.name = "Beta Inc" ∧
      org'.collection_name = _generate_collection_name "Beta Inc" ∧
      find_by_id
        ⟨[⟨"0", "Beta Inc", none, "org_beta_inc", "7", 0, 5, false, none, none⟩],
         [("org_beta_inc", [⟨"1", "a@b.c", "Alice", "hashed:password1", "0", 0, 0⟩])],
         2, 6⟩ "0" false = some org' :=
  rename_success_spec
    ⟨[⟨"0", "Acme", none, "org_acme", "7", 0, 0, false, none, none⟩],
     [("org_acme", [⟨"1", "a@b.c", "Alice", "hashed:password1", "0", 0, 0⟩])],
     2, 5⟩ {} "0" ⟨some "Beta Inc", none⟩ "7"
    ⟨"0", "Acme", none, "org_acme", "7", 0, 0, false, none, none⟩ "Beta Inc"
    (some ⟨"0", "Beta Inc", none, "org_beta_inc", "7", 0, 5, false, none, none⟩)
    ⟨[⟨"0", "Beta Inc", none, "org_beta_inc", "7", 0, 5, false, none, none⟩],
     [("org_beta_inc", [⟨"1", "a@b.c", "Alice", "hashed:password1", "0", 0, 0⟩])],
     2, 6⟩
    (by decide) (by decide) (by decide) (by decide) (by rfl)

/-! ## Claim C3: rollback of a failed rename -/

theorem rollbackMigrate_snd_getCollection_ne (db : DB) (c cause c' : String)
    (h : c' ≠ c) :
    getCollection (rollbackMigrate db c cause).2 c' = getCollection db c' := by
  unfold rollbackMigrate
  dsimp only
  exact getCollection_cond_drop_ne db c c' h

/-- The counterexample refuting C3 as stated: renaming Acme to ACME (a
different string with the same partition key) makes the copy step fail
with a duplicate-key error and surfaces the Internal error, but the
rollback drop destroys the old partition instead of leaving it
untouched. -/
theorem rename_failure_rollback_counterexample :
    update_organization
      ⟨[⟨"0", "Acme", none, "org_acme", "7", 0, 0, false, none, none⟩],
       [("org_acme", [⟨"1", "a@b.c", "Alice", "hashed:password1", "0", 0, 0⟩])],
       2, 5⟩ {} "0" ⟨some "ACME", none⟩ "7" =
      (.error { status_code := 500
                detail := "Failed to migrate organization data: duplicate key error" },
       ⟨[⟨"0", "Acme", none, "org_acme", "7", 0, 0, false, none, none⟩],
        [], 2, 5⟩) ∧
    getCollection
      ⟨[⟨"0", "Acme", none, "org_acme", "7", 0, 0, false, none, none⟩],
       [], 2, 5⟩ "org_acme" ≠
    getCollection
      ⟨[⟨"0", "Acme", none, "org_acme", "7", 0, 0, false, none, none⟩],
       [("org_acme", [⟨"1", "a@b.c", "Alice", "hashed:password1", "0", 0, 0⟩])],
       2, 5⟩ "org_acme" :=
  ⟨by rfl, by decide⟩

theorem migrate_err_spec (db : DB) (fs : FailSpec) (org_id : String)
    (patch : OrganizationUpdate) (new_name : String) (old : String)
    (e : HTTPException) (db' : DB)
    (hkeyne : _generate_collection_name new_name ≠ old)
    (hrun : migrateRename db fs org_id patch new_name
      (_generate_collection_name new_name) old = (.error e, db')) :
    getCollection db' old = getCollection db old ∧
    (listCollectionNames db').contains (_generate_collection_name new_name) = false ∧
    ∃ cause, e.detail = "Failed to migrate organization data: " ++ cause := by
  have hold : old ≠ _generate_collection_name new_name := fun h => hkeyne h.symm
  unfold migrateRename at hrun
  cases hF : fs.failCopy with
  | true =>
    rw [hF, if_pos rfl] at hrun
    have hfst := congrArg Prod.fst hrun
    rw [rollbackMigrate_fst] at hfst
    dsimp only at hfst
    injection hfst with hfst
    have hsnd := congrArg Prod.snd hrun
    dsimp only at hsnd
    refine ⟨?_, ?_, ?_⟩
    · rw [← hsnd, rollbackMigrate_snd_getCollection_ne _ _ _ _ hold]
    · rw [← hsnd]
      exact rollbackMigrate_snd_contains db _ _
    · exact ⟨_, by rw [← hfst]⟩
  | false =>
    rw [hF, if_neg Bool.false_ne_true] at hrun
    cases hcl : copyLoop db (_generate_collection_name new_name)
        (getCollection db old) with
    | mk cres db1 =>
      rw [hcl] at hrun
      have hco : getCollection db1 old = getCollection db old := by
        have h := copyLoop_getCollection_other (_generate_collection_name new_name)
          old hold (getCollection db old) db
        rw [hcl] at h
        exact h
      cases cres with
      | error e0 =>
        dsimp only at hrun
        have hfst := congrArg Prod.fst hrun
        rw [rollbackMigrate_fst] at hfst
        dsimp only at hfst
        injection hfst with hfst
        have hsnd := congrArg Prod.snd hrun
        dsimp only at hsnd
        refine ⟨?_, ?_, ?_⟩
        · rw [← hsnd, rollbackMigrate_snd_getCollection_ne _ _ _ _ hold, hco]
        · rw [← hsnd]
          exact rollbackMigrate_snd_contains db1 _ _
        · exact ⟨_, by rw [← hfst]⟩
      | ok u =>
        dsimp only at hrun
        cases hB : fs.failOrgUpdate with
        | true =>
          unfold orgRepoUpdate at hrun
          rw [hB, if_pos rfl] at hrun
          dsimp only at hrun
          have hfst := congrArg Prod.fst hrun
          rw [rollbackMigrate_fst] at hfst
          dsimp only at hfst
          injection hfst with hfst
          have hsnd := congrArg Prod.snd hrun
          dsimp only at hsnd
          refine ⟨?_, ?_, ?_⟩
          · rw [← hsnd, rollbackMigrate_snd_getCollection_ne _ _ _ _ hold, hco]
          · rw [← hsnd]
            exact rollbackMigrate_snd_contains db1 _ _
          · exact ⟨_, by rw [← hfst]⟩
        | false =>
          unfold orgRepoUpdate at hrun
          rw [hB, if_neg Bool.false_ne_true] at hrun
          dsimp only at hrun
          cases hfo : db1.orgs.find? (fun o => o.id == org_id && !o.is_deleted) with
          | none => rw [hfo] at hrun; simp at hrun
          | some o => rw [hfo] at hrun; simp at hrun

/-- Claim C3 as amended: for every rename whose new partition key differs
from the old one, if the copy of records or the metadata update fails, the
operation surfaces the Internal migration error, the new partition is
absent from the listing afterwards, and the old partition and its records
are unchanged.  (The counterexample shows the unamended claim fails when
the two partition keys coincide.) -/
theorem rename_failure_rollback (db : DB) (fs : FailSpec) (org_id : String)
    (patch : OrganizationUpdate) (adm : String) (org : OrgDoc) (new_name : String)
    (e : HTTPException) (db' : DB)
    (horg : find_by_id db org_id false = some org)
    (hpatch : patch.name = some new_name)
    (hne : new_name ≠ org.name)
    (hkeyne : _generate_collection_name new_name ≠ org.collection_name)
    (hrun : update_organization db fs org_id patch adm = (.error e, db'))
    (h500 : e.status_code = 500) :
    getCollection db' org.collection_name = getCollection db org.collection_name ∧
    (listCollectionNames db').contains (_generate_collection_name new_name) = false ∧
    ∃ cause, e.detail = "Failed to migrate organization data: " ++ cause := by
  unfold update_organization at hrun
  rw [horg] at hrun
  dsimp only at hrun
  cases hadm : (org.admin_id != adm) with
  | true =>
    rw [hadm, if_pos rfl] at hrun
    rw [Prod.mk.injEq] at hrun
    obtain ⟨he, -⟩ := hrun
    injection he with he
    rw [← he] at h500
    exact absurd h500 (by simp)
  | false =>
    rw [hadm, if_neg Bool.false_ne_true, hpatch] at hrun
    dsimp only at hrun
    have hb : (new_name != org.name) = true := by simp [bne_iff_ne, hne]
    rw [hb, if_pos rfl] at hrun
    cases hn : find_by_name db new_name true with
    | some o =>
      rw [hn] at hrun
      dsimp only at hrun
      cases hoid : (o.id != org_id) with
      | true =>
        rw [hoid, if_pos rfl] at hrun
        rw [Prod.mk.injEq] at hrun
        obtain ⟨he, -⟩ := hrun
        injection he with he
        rw [← he] at h500
        exact absurd h500 (by simp)
      | false =>
        rw [hoid, if_neg Bool.false_ne_true] at hrun
        exact migrate_err_spec db fs org_id patch new_name org.collection_name
          e db' hkeyne hrun
    | none =>
      rw [hn] at hrun
      dsimp only at hrun
      exact migrate_err_spec db fs org_id patch new_name org.collection_name
        e db' hkeyne hrun

/-- Witness for the amended C3 at a concrete run: renaming Acme to Beta
with an injected copy failure surfaces the Internal error, leaves
`org_acme` and its records untouched and `org_beta` unlisted. -/
theorem rename_failure_rollback_witness :
    getCollection
      ⟨[⟨"0", "Acme", none, "org_acme", "7", 0, 0, false, none, none⟩],
       [("org_acme", [⟨"1", "a@b.c", "Alice", "hashed:password1", "0", 0, 0⟩])],
       2, 5⟩ "org_acme" =
    getCollection
      ⟨[⟨"0", "Acme", none, "org_acme", "7", 0, 0, false, none, none⟩],
       [("org_acme", [⟨"1", "a@b.c", "Alice", "hashed:password1", "0", 0, 0⟩])],
       2, 5⟩ "org_acme" ∧
    (listCollectionNames
      ⟨[⟨"0", "Acme", none, "org_acme", "7", 0, 0, false, none, none⟩],
       [("org_acme", [⟨"1", "a@b.c", "Alice", "hashed:password1", "0", 0, 0⟩])],
       2, 5⟩).contains (_generate_collection_name "Beta") = false ∧
    ∃ cause,
      ({ status_code := 500
         detail := "Failed to migrate organization data: injected copy failure" }
        : HTTPException).detail = "Failed to migrate organization data: " ++ cause :=
  rename_failure_rollback
    ⟨[⟨"0", "Acme", none, "org_acme", "7", 0, 0, false, none, none⟩],
     [("org_acme", [⟨"1", "a@b.c", "Alice", "hashed:password1", "0", 0, 0⟩])],
     2, 5⟩ { failCopy := true } "0" ⟨some "Beta", none⟩ "7"
    ⟨"0", "Acme", none, "org_acme", "7", 0, 0, false, none, none⟩ "Beta"
    { status_code := 500
      detail := "Failed to migrate organization data: injected copy failure" }
    ⟨[⟨"0", "Acme", none, "org_acme", "7", 0, 0, false, none, none⟩],
     [("org_acme", [⟨"1", "a@b.c", "Alice", "hashed:password1", "0", 0, 0⟩])],
     2, 5⟩
    (by decide) (by decide) (by decide) (by decide) (by rfl) (by rfl)

/-! ## Claims C5 and C10: properties of the sanitizer pipeline -/

theorem dropWhile_append_of_all (p : Char → Bool) (u xs : List Char)
    (h : ∀ c ∈ u, p c = true) :
    (u ++ xs).dropWhile p = xs.dropWhile p := by
  induction u with
  | nil => rfl
  | cons a t ih =>
    rw [List.cons_append, List.dropWhile_cons, if_pos (h a (by simp))]
    exact ih (fun c hc => h c (by simp [hc]))

theorem rstrip_nil_iff (p : Char → Bool) (z : List Char) :
    rstripBy p z = [] ↔ z.reverse.dropWhile p = [] := by
  unfold rstripBy
  constructor
  · intro h
    have := congrArg List.reverse h
    rwa [List.reverse_reverse] at this
  · intro h
    rw [h]
    rfl

theorem rstrip_cons_of_nil (p : Char → Bool) (a : Char) (z : List Char)
    (h : rstripBy p z = []) :
    rstripBy p (a :: z) = if p a then [] else [a] := by
  have hz : z.reverse.dropWhile p = [] := (rstrip_nil_iff p z).mp h
  unfold rstripBy
  have hrev : (a :: z).reverse = z.reverse ++ [a] := by simp
  rw [hrev, List.dropWhile_append, hz]
  cases hp : p a with
  | true => simp [List.dropWhile_cons, hp]
  | false => simp [List.dropWhile_cons, hp]

theorem rstrip_cons_of_ne (p : Char → Bool) (a : Char) (z : List Char)
    (h : rstripBy p z ≠ []) :
    rstripBy p (a :: z) = a :: rstripBy p z := by
  have hz : z.reverse.dropWhile p ≠ [] := by
    intro hc
    exact h ((rstrip_nil_iff p z).mpr hc)
  unfold rstripBy
  have hrev : (a :: z).reverse = z.reverse ++ [a] := by simp
  rw [hrev, List.dropWhile_append]
  rw [if_neg (by simpa [List.isEmpty_iff] using hz)]
  simp

theorem lstrip_cons_of_pos (p : Char → Bool) (a : Char) (z : List Char)
    (h : p a = true) : lstripBy p (a :: z) = lstripBy p z := by
  unfold lstripBy
  rw [List.dropWhile_cons, if_pos h]

theorem lstrip_cons_of_neg (p : Char → Bool) (a : Char) (z : List Char)
    (h : p a = false) : lstripBy p (a :: z) = a :: z := by
  unfold lstripBy
  rw [List.dropWhile_cons, if_neg (by simp [h])]

theorem lstrip_rstrip_comm (p : Char → Bool) (l : List Char) :
    lstripBy p (rstripBy p l) = rstripBy p (lstripBy p l) := by
  induction l with
  | nil => rfl
  | cons a t ih =>
    cases ha : p a with
    | true =>
      have h1 : lstripBy p (a :: t) = lstripBy p t := lstrip_cons_of_pos p a t ha
      have h2 : lstripBy p (rstripBy p (a :: t)) = lstripBy p (rstripBy p t) := by
        by_cases hrt : rstripBy p t = []
        · rw [rstrip_cons_of_nil p a t hrt, hrt, if_pos ha]
        · rw [rstrip_cons_of_ne p a t hrt, lstrip_cons_of_pos p a _ ha]
      rw [h2, ih, h1]
    | false =>
      have h1 : lstripBy p (a :: t) = a :: t := lstrip_cons_of_neg p a t ha
      rw [h1]
      by_cases hrt : rstripBy p t = []
      · rw [rstrip_cons_of_nil p a t hrt, if_neg (by simp [ha])]
        exact lstrip_cons_of_neg p a [] ha
      · rw [rstrip_cons_of_ne p a t hrt]
        exact lstrip_cons_of_neg p a _ ha

theorem collapseU_all_underscore (v : List Char)
    (hv : ∀ c ∈ v, c = '_') (hne : v ≠ []) : collapseU v = ['_'] := by
  induction v with
  | nil => exact absurd rfl hne
  | cons a t ih =>
    have ha : a = '_' := hv a (by simp)
    subst ha
    cases t with
    | nil => rfl
    | cons b t' =>
      have hb : b = '_' := hv b (by simp)
      subst hb
      rw [show collapseU ('_' :: '_' :: t') = collapseU ('_' :: t') by
        simp [collapseU]]
      exact ih (fun c hc => hv c (by simp at hc ⊢; tauto)) (by simp)

theorem stripU_cons_underscore (z : List Char) :
    stripUnderscores ('_' :: z) = stripUnderscores z := by
  unfold stripUnderscores
  rw [lstrip_cons_of_pos _ _ _ (by decide)]

theorem stripU_collapse_cons_underscore (w : List Char) :
    stripUnderscores (collapseU ('_' :: w)) = stripUnderscores (collapseU w) := by
  cases w with
  | nil => decide
  | cons c t =>
    cases hc : (c == '_') with
    | true =>
      have : c = '_' := eq_of_beq hc
      subst this
      rw [show collapseU ('_' :: '_' :: t) = collapseU ('_' :: t) by
        simp [collapseU]]
    | false =>
      rw [show collapseU ('_' :: c :: t) = '_' :: collapseU (c :: t) by
        simp [collapseU, hc]]
      exact stripU_cons_underscore _

theorem stripU_collapse_leading_underscores (u : List Char) (xs : List Char)
    (hu : ∀ c ∈ u, c = '_') :
    stripUnderscores (collapseU (u ++ xs)) = stripUnderscores (collapseU xs) := by
  induction u with
  | nil => rfl
  | cons a t ih =>
    have ha : a = '_' := hu a (by simp)
    subst ha
    rw [List.cons_append, stripU_collapse_cons_underscore]
    exact ih (fun c hc => hu c (by simp [hc]))

theorem rstrip_collapse_underscore_suffix (xs v : List Char)
    (hv : ∀ c ∈ v, c = '_') :
    rstripBy (fun c => c == '_') (collapseU (xs ++ v)) =
      rstripBy (fun c => c == '_') (collapseU xs) := by
  induction xs with
  | nil =>
    cases hv0 : v with
    | nil => rfl
    | cons v0 v' =>
      rw [List.nil_append, collapseU_all_underscore (v0 :: v')
        (by rw [hv0] at hv; exact hv) (by simp)]
      decide
  | cons a t ih =>
    cases t with
    | nil =>
      cases hv0 : v with
      | nil => simp
      | cons v0 v' =>
        subst hv0
        have hv0' : v0 = '_' := hv v0 (by simp)
        subst hv0'
        have hall : collapseU ('_' :: v') = ['_'] :=
          collapseU_all_underscore _ (fun c hc => by
            simp at hc
            rcases hc with rfl | hc
            · rfl
            · exact hv c (by simp [hc])) (by simp)
        cases ha : (a == '_') with
        | true =>
          have : a = '_' := eq_of_beq ha
          subst this
          rw [List.singleton_append,
            show collapseU ('_' :: '_' :: v') = collapseU ('_' :: v') by
              simp [collapseU],
            hall]
          decide
        | false =>
          rw [List.singleton_append,
            show collapseU (a :: '_' :: v') = a :: collapseU ('_' :: v') by
              simp [collapseU, ha],
            hall]
          rw [rstrip_cons_of_nil _ _ _ (by decide), if_neg (by simp [ha]),
            show collapseU [a] = [a] from rfl,
            rstrip_cons_of_nil _ _ _ (by rfl), if_neg (by simp [ha])]
    | cons b t' =>
      cases hab : (a == '_' && b == '_') with
      | true =>
        rw [List.cons_append, List.cons_append,
          show collapseU (a :: b :: (t' ++ v)) = collapseU (b :: (t' ++ v)) by
            simp [collapseU, hab],
          show collapseU (a :: b :: t') = collapseU (b :: t') by
            simp [collapseU, hab]]
        rw [← List.cons_append]
        exact ih
      | false =>
        rw [List.cons_append, List.cons_append,
          show collapseU (a :: b :: (t' ++ v)) = a :: collapseU (b :: (t' ++ v)) by
            simp [collapseU, hab],
          show collapseU (a :: b :: t') = a :: collapseU (b :: t') by
            simp [collapseU, hab]]
        rw [← List.cons_append] at *
        by_cases hz : rstripBy (fun c => c == '_') (collapseU (b :: t')) = []
        · have hz' : rstripBy (fun c => c == '_') (collapseU (b :: t' ++ v)) = [] := by
            rw [ih, hz]
          rw [rstrip_cons_of_nil _ _ _ hz', rstrip_cons_of_nil _ _ _ hz]
        · have hz' : rstripBy (fun c => c == '_') (collapseU (b :: t' ++ v)) ≠ [] := by
            rw [ih]
            exact hz
          rw [rstrip_cons_of_ne _ _ _ hz', rstrip_cons_of_ne _ _ _ hz, ih]

theorem stripU_collapse_suffix (xs v : List Char) (hv : ∀ c ∈ v, c = '_') :
    stripUnderscores (collapseU (xs ++ v)) = stripUnderscores (collapseU xs) := by
  unfold stripUnderscores
  rw [← lstrip_rstrip_comm, rstrip_collapse_underscore_suffix xs v hv,
    lstrip_rstrip_comm]

theorem pyStrip_decomposition (l : List Char) :
    ∃ p q, l = p ++ pyStrip l ++ q ∧
      (∀ c ∈ p, pyWhitespaceChar c = true) ∧
      (∀ c ∈ q, pyWhitespaceChar c = true) := by
  refine ⟨l.takeWhile pyWhitespaceChar,
    ((l.dropWhile pyWhitespaceChar).reverse.takeWhile pyWhitespaceChar).reverse,
    ?_, ?_, ?_⟩
  · unfold pyStrip rstripBy lstripBy
    rw [List.append_assoc]
    conv_lhs => rw [← List.takeWhile_append_dropWhile
      (p := pyWhitespaceChar) (l := l)]
    congr 1
    conv_lhs => rw [← List.reverse_reverse (l.dropWhile pyWhitespaceChar),
      ← List.takeWhile_append_dropWhile (p := pyWhitespaceChar)
        (l := (l.dropWhile pyWhitespaceChar).reverse),
      List.reverse_append]
  · exact fun c hc => List.mem_takeWhile_imp hc
  · exact fun c hc => List.mem_takeWhile_imp (List.mem_reverse.mp hc)

theorem ws_not_allowed (c : Char) (hc : pyWhitespaceChar c = true) :
    allowedChar c = false := by
  simp only [pyWhitespaceChar, Bool.or_eq_true, beq_iff_eq] at hc
  rcases hc with ((((h | h) | h) | h) | h) | h <;> (subst h; decide)

theorem replace_ws_all_underscore (u : List Char)
    (hu : ∀ c ∈ u, pyWhitespaceChar c = true) :
    ∀ c ∈ replaceDisallowed u, c = '_' := by
  intro c hc
  unfold replaceDisallowed at hc
  rw [List.mem_map] at hc
  obtain ⟨c0, hc0, rfl⟩ := hc
  rw [ws_not_allowed c0 (hu c0 hc0)]
  simp

theorem sanitize_strip_redundant (l : List Char) :
    stripUnderscores (collapseU (replaceDisallowed (pyStrip l))) =
      stripUnderscores (collapseU (replaceDisallowed l)) := by
  obtain ⟨p, q, hl, hp, hq⟩ := pyStrip_decomposition l
  have hsplit : replaceDisallowed (p ++ pyStrip l ++ q) =
      replaceDisallowed p ++ replaceDisallowed (pyStrip l) ++ replaceDisallowed q := by
    unfold replaceDisallowed
    rw [List.map_append, List.map_append]
  conv_rhs => rw [hl, hsplit]
  rw [stripU_collapse_suffix _ _ (replace_ws_all_underscore q hq)]
  rw [stripU_collapse_leading_underscores _ _ (replace_ws_all_underscore p hp)]

/-- Claim C5: the sanitizer agrees, on every input, with the pipeline the
spec describes (lower-case, replace every character outside `[a-z0-9_]`
with an underscore, collapse runs of underscores, strip end underscores,
prefix `org_`): the extra whitespace-stripping the code performs is
redundant.  As a Lean function it is pure, total and deterministic by
construction, and on the spec example Acme Corp it yields
`org_acme_corp`. -/
theorem sanitizer_matches_spec (name : String) :
    _generate_collection_name name = sanitizeSpec name ∧
    _generate_collection_name "Acme Corp" = "org_acme_corp" := by
  constructor
  · unfold _generate_collection_name sanitizeSpec
    exact congrArg (fun l => "org_" ++ String.mk l)
      (sanitize_strip_redundant (pyLower name.data))
  · decide

/-- The counterexample refuting C10 as stated: the Latin-1 capital letter
E-acute passes the schema validator (it is alphanumeric for Python), but
it lower-cases to a character outside `[a-z0-9]`, so the sanitizer returns
the bare namespace marker `org_`. -/
theorem validator_admits_degenerate_key :
    validName "É" = true ∧ _generate_collection_name "É" = "org_" := by
  constructor
  · decide
  · decide

theorem ascii_alnum_lower_ok (c : Char) (ha : c.toNat < 128)
    (h : pyIsAlnumChar c = true) :
    allowedChar (pyLowerChar c) = true ∧ pyLowerChar c ≠ '_' ∧
    pyWhitespaceChar (pyLowerChar c) = false := by
  have key : ∀ n, n < 128 → pyIsAlnumChar (Char.ofNat n) = true →
      allowedChar (pyLowerChar (Char.ofNat n)) = true ∧
      pyLowerChar (Char.ofNat n) ≠ '_' ∧
      pyWhitespaceChar (pyLowerChar (Char.ofNat n)) = false := by decide
  have hk := key c.toNat ha (by rw [Char.ofNat_toNat]; exact h)
  rwa [Char.ofNat_toNat] at hk

theorem mem_dropWhile_of_not (p : Char → Bool) (l : List Char) (x : Char)
    (hx : x ∈ l) (hp : p x = false) : x ∈ l.dropWhile p := by
  have hta := List.takeWhile_append_dropWhile (p := p) (l := l)
  rw [← hta] at hx
  rcases List.mem_append.mp hx with h | h
  · have := List.mem_takeWhile_imp h
    rw [hp] at this
    cases this
  · exact h

theorem mem_rstrip_of_not (p : Char → Bool) (l : List Char) (x : Char)
    (hx : x ∈ l) (hp : p x = false) : x ∈ rstripBy p l := by
  unfold rstripBy
  rw [List.mem_reverse]
  exact mem_dropWhile_of_not p l.reverse x (List.mem_reverse.mpr hx) hp

theorem mem_strip_of_not (p : Char → Bool) (l : List Char) (x : Char)
    (hx : x ∈ l) (hp : p x = false) :
    x ∈ rstripBy p (lstripBy p l) :=
  mem_rstrip_of_not p _ x (mem_dropWhile_of_not p l x hx hp) hp

theorem mem_collapseU_of_ne (l : List Char) (x : Char)
    (hx : x ∈ l) (hne : x ≠ '_') : x ∈ collapseU l := by
  induction l with
  | nil => cases hx
  | cons a t ih =>
    cases t with
    | nil =>
      simp only [collapseU]
      exact hx
    | cons b t' =>
      cases hab : (a == '_' && b == '_') with
      | true =>
        rw [show collapseU (a :: b :: t') = collapseU (b :: t') by
          simp [collapseU, hab]]
        rcases List.mem_cons.mp hx with rfl | h
        · have : (x == '_') = true := (Bool.and_eq_true _ _).mp hab |>.1
          exact absurd (eq_of_beq this) hne
        · exact ih h
      | false =>
        rw [show collapseU (a :: b :: t') = a :: collapseU (b :: t') by
          simp [collapseU, hab]]
        rcases List.mem_cons.mp hx with rfl | h
        · exact List.mem_cons_self _ _
        · exact List.mem_cons_of_mem _ (ih h)

/-- Claim C10 as amended: for every name accepted by the schema validator
all of whose characters are ASCII, the sanitizer output is strictly longer
than the bare namespace marker, so it never returns exactly `org_`.  (The
counterexample shows the unamended claim fails for non-ASCII validated
names.) -/
theorem validated_ascii_sanitize_nonempty (name : String)
    (hvalid : validName name = true)
    (hascii : ∀ c ∈ name.data, c.toNat < 128) :
    ("org_" : String).length < (_generate_collection_name name).length ∧
    _generate_collection_name name ≠ "org_" := by
  unfold validName pyIsAlnumStr at hvalid
  simp only [Bool.and_eq_true, decide_eq_true_eq] at hvalid
  obtain ⟨-, hne0, hall⟩ := hvalid
  cases hfl : ((name.data.filter (fun c => c != '_')).filter
      (fun c => c != '-') |>.filter (fun c => c != ' ')) with
  | nil => rw [hfl] at hne0; simp at hne0
  | cons c0 rest =>
    have hc0f : c0 ∈ ((name.data.filter (fun c => c != '_')).filter
        (fun c => c != '-') |>.filter (fun c => c != ' ')) := by
      rw [hfl]
      simp
    have hc0 : c0 ∈ name.data :=
      List.mem_of_mem_filter (List.mem_of_mem_filter (List.mem_of_mem_filter hc0f))
    have hc0alnum : pyIsAlnumChar c0 = true := by
      rw [hfl] at hall
      rw [List.all_eq_true] at hall
      exact hall c0 (by simp)
    obtain ⟨hallow, hnu, hws⟩ :=
      ascii_alnum_lower_ok c0 (hascii c0 hc0) hc0alnum
    have m1 : pyLowerChar c0 ∈ pyLower name.data :=
      List.mem_map.mpr ⟨c0, hc0, rfl⟩
    have m2 : pyLowerChar c0 ∈ pyStrip (pyLower name.data) :=
      mem_strip_of_not pyWhitespaceChar _ _ m1 hws
    have m3 : pyLowerChar c0 ∈ replaceDisallowed (pyStrip (pyLower name.data)) := by
      unfold replaceDisallowed
      exact List.mem_map.mpr ⟨pyLowerChar c0, m2, by rw [hallow]; simp⟩
    have m4 : pyLowerChar c0 ∈
        collapseU (replaceDisallowed (pyStrip (pyLower name.data))) :=
      mem_collapseU_of_ne _ _ m3 hnu
    have m5 : pyLowerChar c0 ∈
        stripUnderscores (collapseU (replaceDisallowed (pyStrip (pyLower name.data)))) := by
      unfold stripUnderscores
      exact mem_strip_of_not _ _ _ m4 (by simp [hnu])
    have hcore : 0 < (stripUnderscores
        (collapseU (replaceDisallowed (pyStrip (pyLower name.data))))).length :=
      List.length_pos.mpr (List.ne_nil_of_mem m5)
    have hlen : (_generate_collection_name name).length =
        4 + (stripUnderscores
          (collapseU (replaceDisallowed (pyStrip (pyLower name.data))))).length := by
      unfold _generate_collection_name
      rw [String.length_append]
      rfl
    constructor
    · rw [hlen]
      have h4 : ("org_" : String).length = 4 := rfl
      rw [h4]
      omega
    · intro h
      have := congrArg String.length h
      rw [hlen] at this
      have h4 : ("org_" : String).length = 4 := rfl
      rw [h4] at this
      omega

/-- Witness for the amended C10: Acme Corp is a validated all-ASCII name
whose sanitized key `org_acme_corp` is strictly longer than `org_`. -/
theorem validated_ascii_sanitize_nonempty_witness :
    ("org_" : String).length < (_generate_collection_name "Acme Corp").length ∧
    _generate_collection_name "Acme Corp" ≠ "org_" :=
  validated_ascii_sanitize_nonempty "Acme Corp" (by decide) (by decide)
